import Mathlib

/-!
Verification of the cell codec, diff renderer, input decoder and capability
controller of the pyboosted/tui terminal UI runtime, via a shallow embedding
of the TypeScript sources (src/cell.ts, src/ansi.ts, src/diff.ts,
src/input/decoder.ts, src/input/protocols.ts, src/input/terminal-quirks.ts,
src/input/detection.ts, src/input/features.ts, src/input/enable.ts).

Machine integers are modelled as `Nat` with explicit masks (`&&& 0xff`,
`% 2^32`) where JavaScript's 32-bit coercions matter.  JavaScript strings
become `String`, `undefined`-able values become `Option`, and JavaScript
truthiness tests on colors (`if (fg)`, `!color`) are modelled by the
explicit `Color.truthy` predicate.
-/

/-! ## Generic helpers (JavaScript string/array primitives) -/

/-- JavaScript `Array.prototype.join(sep)`. -/
def joinSep (sep : String) : List String → String
  | [] => ""
  | [x] => x
  | x :: xs => x ++ sep ++ joinSep sep xs

/-- JavaScript `String.prototype.includes(needle)` (substring containment). -/
def listIsInfixOf (needle hay : List Char) : Bool :=
  (hay.tails).any (fun t => needle.isPrefixOf t)

/-- String form of `listIsInfixOf`. -/
def strIncludes (hay needle : String) : Bool :=
  listIsInfixOf needle.data hay.data

/-- JavaScript `String.prototype.toLowerCase()` (ASCII case folding; env
variable values in this code base are ASCII). -/
def strToLower (s : String) : String :=
  String.mk (s.data.map Char.toLower)

/-- JavaScript `String.prototype.padStart(len, '0')`. -/
def padStartZero (s : String) (len : Nat) : String :=
  String.mk (List.replicate (len - s.length) '0') ++ s

/-- JavaScript `n.toString(16)` for a non-negative integer (lower-case hex,
most significant digit first, `"0"` for zero). -/
def toHexString (n : Nat) : String :=
  String.mk (Nat.toDigits 16 n)

/-! ## cell.ts — color codec

The TypeScript `Color` type is `` `#${string}` | number ``: either a hex
color string or a 256-color palette index. -/

inductive Color where
  | palette (n : Nat)
  | hex (s : String)
deriving DecidableEq, Repr

/-- JavaScript truthiness of a `Color` value: the number `0` and the empty
string are falsy, everything else is truthy. -/
def Color.truthy : Color → Bool
  | .palette n => n != 0
  | .hex s => s != ""

/-- Truthiness of an optional color (`undefined` is falsy). -/
def truthyOpt : Option Color → Bool
  | none => false
  | some c => c.truthy

/-- Value of one hex digit, `none` for a non-hex-digit character. -/
def hexDigitVal (c : Char) : Option Nat :=
  if '0' ≤ c ∧ c ≤ '9' then some (c.toNat - '0'.toNat)
  else if 'a' ≤ c ∧ c ≤ 'f' then some (c.toNat - 'a'.toNat + 10)
  else if 'A' ≤ c ∧ c ≤ 'F' then some (c.toNat - 'A'.toNat + 10)
  else none

/-- The regex `^#([0-9a-fA-F]{6})$` together with
`Number.parseInt(match[1], 16)`: accepts `#` followed by exactly six hex
digits and returns the 24-bit value. -/
def parseHexColor (s : String) : Option Nat :=
  match s.data with
  | '#' :: rest =>
    if rest.length = 6 then
      rest.foldl
        (fun acc c =>
          match acc, hexDigitVal c with
          | some v, some d => some (v * 16 + d)
          | _, _ => none)
        (some 0)
    else none
  | _ => none

/-- packRgbColor from cell.ts: 5-6-5 packing offset by `COLOR_RGB_START = 0x0101`. -/
def packRgbColor (r g b : Nat) : Nat :=
  let r5 := (r >>> 3) &&& 0x1f
  let g6 := (g >>> 2) &&& 0x3f
  let b5 := (b >>> 3) &&& 0x1f
  0x0101 + (r5 <<< 11) + (g6 <<< 5) + b5

/-- unpackRgbColor from cell.ts: 5-6-5 unpacking with bit replication. -/
def unpackRgbColor (packed : Nat) : Nat × Nat × Nat :=
  let rgb := packed - 0x0101
  let r5 := (rgb >>> 11) &&& 0x1f
  let g6 := (rgb >>> 5) &&& 0x3f
  let b5 := rgb &&& 0x1f
  ((r5 <<< 3) ||| (r5 >>> 2), (g6 <<< 2) ||| (g6 >>> 4), (b5 <<< 3) ||| (b5 >>> 2))

/-- encodeColor from cell.ts.  Note the JavaScript guard `if (!color)` uses
truthiness, so the palette index `0` is encoded as `COLOR_NONE = 0`. -/
def encodeColor (color : Option Color) : Nat :=
  match color with
  | none => 0
  | some c =>
    if c.truthy = false then 0
    else
      match c with
      | .palette n => 0x0001 + (n &&& 0xff)
      | .hex s =>
        match parseHexColor s with
        | none => 0
        | some rgb => packRgbColor ((rgb >>> 16) &&& 0xff) ((rgb >>> 8) &&& 0xff) (rgb &&& 0xff)

/-- decodeColor from cell.ts. -/
def decodeColor (encoded : Nat) : Option Color :=
  if encoded = 0 then none
  else if encoded ≤ 0x0001 + 255 then some (.palette (encoded - 0x0001))
  else
    let (r, g, b) := unpackRgbColor encoded
    some (.hex ("#" ++ padStartZero (toHexString ((r <<< 16) ||| (g <<< 8) ||| b)) 6))

/-! ## cell.ts — packed cells

A `Cell` is two 32-bit words: `word0 = (attr<<24) | (codepoint & 0x1FFFFF)`,
`word1 = (enc(fg)<<16) | enc(bg)`.  JavaScript's int32 coercion of `<<` and
`|` is modelled by reducing modulo `2^32`; equality of the resulting
unsigned values coincides with JavaScript `===` on the signed words. -/

abbrev Cell := Nat × Nat

/-- Style attributes (types.ts `Attributes`). -/
structure Attributes where
  bold : Bool := false
  dim : Bool := false
  italic : Bool := false
  underline : Bool := false
  reverse : Bool := false
  strikethrough : Bool := false
  fg : Option Color := none
  bg : Option Color := none
deriving DecidableEq, Repr

/-- JavaScript `char ? char.codePointAt(0) || 0x20 : 0x20`. -/
def strCodePoint (s : String) : Nat :=
  match s.data with
  | [] => 0x20
  | c :: _ => if c.toNat = 0 then 0x20 else c.toNat

/-- packCellPart from cell.ts (word0 of a cell). -/
def packCellPart (char : String) (attr : Nat) : Nat :=
  ((attr &&& 0xff) <<< 24) ||| (strCodePoint char &&& 0x1fffff)

/-- packCell from cell.ts. -/
def packCell (char : String) (attr : Nat) (fgColor bgColor : Option Color) : Cell :=
  let cell1 := packCellPart char attr
  let fg := encodeColor fgColor
  let bg := encodeColor bgColor
  let cell2 := ((fg <<< 16) % 4294967296) ||| bg
  (cell1, cell2)

/-- emptyCell from cell.ts: space, no attributes, default colors. -/
def emptyCell : Cell := (packCellPart " " 0, 0)

/-- unpackChar from cell.ts.  (JavaScript `String.fromCodePoint` throws on an
invalid scalar value, which is reachable only from hand-crafted packed words;
`Char.ofNat` substitutes NUL there.) -/
def unpackChar (cell : Cell) : String :=
  String.singleton (Char.ofNat (cell.1 &&& 0x1fffff))

/-- unpackAttr from cell.ts. -/
def unpackAttr (cell : Cell) : Nat := (cell.1 >>> 24) &&& 0xff

/-- unpackFgColor from cell.ts. -/
def unpackFgColor (cell : Cell) : Option Color := decodeColor ((cell.2 >>> 16) &&& 0xffff)

/-- unpackBgColor from cell.ts. -/
def unpackBgColor (cell : Cell) : Option Color := decodeColor (cell.2 &&& 0xffff)

/-- cellEquals from cell.ts: word-wise equality. -/
def cellEquals (a b : Cell) : Bool := a.1 == b.1 && a.2 == b.2

/-! ## ansi.ts — ANSI emitter -/

def ESC : String := "\x1b["

def ESC_RESET : String := "\x1b[0m"

/-- Body of `generateAttrLUT` from ansi.ts: the escape string for one
attribute byte.  The source precomputes these for `i ∈ [0,256)` into the
`ATTR_LUT` array; indexing that array equals applying this function, and the
diff engine only indexes it with attribute bytes `< 256`. -/
def attrLUT (i : Nat) : String :=
  let parts : List String :=
    ["0"]
      ++ (if i &&& 0x01 != 0 then ["1"] else [])
      ++ (if i &&& 0x02 != 0 then ["2"] else [])
      ++ (if i &&& 0x04 != 0 then ["3"] else [])
      ++ (if i &&& 0x08 != 0 then ["4"] else [])
      ++ (if i &&& 0x10 != 0 then ["7"] else [])
      ++ (if i &&& 0x20 != 0 then ["9"] else [])
  ESC ++ joinSep ";" parts ++ "m"

/-- moveTo from ansi.ts (1-based cursor addressing). -/
def moveTo (row col : Nat) : String :=
  ESC ++ toString row ++ ";" ++ toString col ++ "H"

/-- colorToAnsi from ansi.ts. -/
def colorToAnsi (color : Color) (isBg : Bool) : String :=
  match color with
  | .palette n => ESC ++ (if isBg then "48" else "38") ++ ";5;" ++ toString n ++ "m"
  | .hex s =>
    match parseHexColor s with
    | none => ""
    | some rgb =>
      ESC ++ (if isBg then "48" else "38") ++ ";2;"
        ++ toString ((rgb >>> 16) &&& 0xff) ++ ";"
        ++ toString ((rgb >>> 8) &&& 0xff) ++ ";"
        ++ toString (rgb &&& 0xff) ++ "m"

/-- JavaScript `seq.slice(2, -1)`: strip the `ESC [` prefix and the final `m`. -/
def sliceCodes (s : String) : String := (s.drop 2).dropRight 1

/-- attributesToByte from ansi.ts. -/
def attributesToByte (attrs : Attributes) : Nat :=
  (if attrs.bold then 0x01 else 0)
    ||| (if attrs.dim then 0x02 else 0)
    ||| (if attrs.italic then 0x04 else 0)
    ||| (if attrs.underline then 0x08 else 0)
    ||| (if attrs.reverse then 0x10 else 0)
    ||| (if attrs.strikethrough then 0x20 else 0)

/-- The `if (color) { const seq = colorToAnsi(...); if (seq) parts.push(seq.slice(2,-1)) }`
pattern shared by `buildAnsiSequence` (ansi.ts) and `getCachedColorSequence`
(diff.ts): the color's codes, or nothing for a falsy color / invalid hex. -/
def colorParts (c : Option Color) (isBg : Bool) : List String :=
  match c with
  | none => []
  | some col =>
    if col.truthy then
      let seq := colorToAnsi col isBg
      if seq != "" then [sliceCodes seq] else []
    else []

/-- buildAnsiSequence from ansi.ts. -/
def buildAnsiSequence (attrs : Attributes) : String :=
  let attrByte := attributesToByte attrs
  let base : List String := if attrByte > 0 then [sliceCodes (attrLUT attrByte)] else ["0"]
  let parts := base ++ colorParts attrs.fg false ++ colorParts attrs.bg true
  if parts.length > 0 then ESC ++ joinSep ";" parts ++ "m" else ""

/-! ## diff.ts — DiffEngine

The LRU color-sequence cache of `getCachedColorSequence` is semantically
transparent: for every key it stores exactly the string this pure
computation produces, and the only colliding keys — the falsy color values
`undefined` and palette 0, which both stringify to `""` — produce identical
sequences (both fail the `if (fg)` / `if (bg)` / `!bg` truthiness tests).
It is therefore dropped from the embedding. -/

def getCachedColorSequence (fg bg : Option Color) (needsBgReset : Bool) : String :=
  let parts : List String :=
    (if needsBgReset && !(truthyOpt bg) then ["49"] else [])
      ++ colorParts fg false ++ colorParts bg true
  if parts.length > 0 then ESC ++ joinSep ";" parts ++ "m" else ""

/-- The per-frame ANSI state tracker (diff.ts `AnsiState`). -/
structure AnsiState where
  attr : Nat
  fg : Option Color
  bg : Option Color
deriving DecidableEq, Repr

/-- generateStateChange from diff.ts.  Returns the emitted delta together
with the updated tracked state and has-set-background flag. -/
def generateStateChange (st : AnsiState) (hasSetBackground : Bool)
    (newAttr : Nat) (newFg newBg : Option Color) : String × AnsiState × Bool :=
  let attrChanged := st.attr != newAttr
  let fgChanged := decide (st.fg ≠ newFg)
  let bgChanged := decide (st.bg ≠ newBg)
  let needsBgReset :=
    (decide (st.bg ≠ none) && decide (newBg = none))
      || (hasSetBackground && decide (newBg = none) && decide (st.bg = none))
  if !(attrChanged || fgChanged || bgChanged || needsBgReset) then
    ("", st, hasSetBackground)
  else
    let output :=
      if attrChanged && !fgChanged && !bgChanged then
        attrLUT newAttr
      else if !attrChanged && (fgChanged || bgChanged || needsBgReset) then
        getCachedColorSequence (if fgChanged then newFg else st.fg)
          (if bgChanged || needsBgReset then newBg else st.bg) needsBgReset
      else
        let attrs : Attributes :=
          { bold := newAttr &&& 0x01 != 0
            dim := newAttr &&& 0x02 != 0
            italic := newAttr &&& 0x04 != 0
            underline := newAttr &&& 0x08 != 0
            reverse := newAttr &&& 0x10 != 0
            strikethrough := newAttr &&& 0x20 != 0
            fg := if truthyOpt newFg then newFg else none
            bg := if truthyOpt newBg then newBg else none }
        buildAnsiSequence attrs
    let hasSetBg' := if newBg ≠ none then true else hasSetBackground
    (output, ⟨newAttr, newFg, newBg⟩, hasSetBg')

/-- The diff engine's double buffer plus tracked frame state (diff.ts
`DiffEngine`).  Out-of-range coordinates are modelled by `Nat` plus the upper
bound check — the source additionally no-ops on negative coordinates. -/
structure DiffEngine where
  rows : Nat
  cols : Nat
  size : Nat
  prev : List Cell
  curr : List Cell
  dirty : List Bool
  ansiState : AnsiState
  hasSetBackground : Bool
deriving DecidableEq, Repr

namespace DiffEngine

/-- The constructor of diff.ts `DiffEngine`. -/
def make (rows cols : Nat) : DiffEngine :=
  { rows := rows
    cols := cols
    size := rows * cols
    prev := List.replicate (rows * cols) emptyCell
    curr := List.replicate (rows * cols) emptyCell
    dirty := List.replicate rows false
    ansiState := ⟨0, none, none⟩
    hasSetBackground := false }

/-- markDirty. -/
def markDirty (e : DiffEngine) (row : Nat) : DiffEngine :=
  if row < e.rows then { e with dirty := e.dirty.set row true } else e

/-- markAllDirty (`dirty.fill(1)`). -/
def markAllDirty (e : DiffEngine) : DiffEngine :=
  { e with dirty := e.dirty.map (fun _ => true) }

/-- setCellWithAttrs. -/
def setCellWithAttrs (e : DiffEngine) (row col : Nat) (char : String)
    (attrs : Option Attributes) : DiffEngine :=
  if row < e.rows ∧ col < e.cols then
    let index := row * e.cols + col
    let attrByte := match attrs with | some a => attributesToByte a | none => 0
    let attrsFg : Option Color := match attrs with | some a => a.fg | none => none
    let attrsBg : Option Color := match attrs with | some a => a.bg | none => none
    let newCell := packCell char attrByte attrsFg attrsBg
    let currentCell := e.curr.getD index emptyCell
    if cellEquals currentCell newCell then e
    else ({ e with curr := e.curr.set index newCell }).markDirty row
  else e

/-- setCell (packed-cell variant). -/
def setCell (e : DiffEngine) (row col : Nat) (cell : Cell) : DiffEngine :=
  if row < e.rows ∧ col < e.cols then
    let index := row * e.cols + col
    if cellEquals (e.curr.getD index emptyCell) cell then e
    else ({ e with curr := e.curr.set index cell }).markDirty row
  else e

/-- getCell. -/
def getCell (e : DiffEngine) (row col : Nat) : Cell :=
  if row < e.rows ∧ col < e.cols then e.curr.getD (row * e.cols + col) emptyCell
  else emptyCell

/-- clear. -/
def clear (e : DiffEngine) : DiffEngine :=
  ({ e with curr := e.curr.map (fun _ => emptyCell) }).markAllDirty

/-- resize: early-returns when the dimensions are unchanged, otherwise
reallocates both buffers, fills them with the empty cell and marks every row
dirty.  The tracked ANSI state is untouched. -/
def resize (e : DiffEngine) (rows cols : Nat) : DiffEngine :=
  if rows = e.rows ∧ cols = e.cols then e
  else
    { rows := rows
      cols := cols
      size := rows * cols
      prev := List.replicate (rows * cols) emptyCell
      curr := List.replicate (rows * cols) emptyCell
      dirty := List.replicate rows true
      ansiState := e.ansiState
      hasSetBackground := e.hasSetBackground }

/-- The `while (runEnd < this.cols)` loop of findRunEnd, with the remaining
column count `cols - runEnd` made explicit as fuel (the loop advances one
column per iteration, so the fuel is exact). -/
def findRunEndAux (curr : List Cell) (offset : Nat) (runAttr : Nat)
    (runFg runBg : Option Color) : Nat → Nat → Nat
  | runEnd, 0 => runEnd
  | runEnd, fuel+1 =>
    let c := curr.getD (offset + runEnd) emptyCell
    if unpackAttr c ≠ runAttr ∨ unpackFgColor c ≠ runFg ∨ unpackBgColor c ≠ runBg then
      runEnd
    else findRunEndAux curr offset runAttr runFg runBg (runEnd + 1) fuel

/-- findRunEnd from diff.ts. -/
def findRunEnd (cols : Nat) (curr : List Cell) (row startCol : Nat)
    (runAttr : Nat) (runFg runBg : Option Color) : Nat :=
  findRunEndAux curr (row * cols) runAttr runFg runBg startCol (cols - startCol)

/-- runHasChanges from diff.ts (the early-exit loop is a pure `any`). -/
def runHasChanges (cols : Nat) (prev curr : List Cell) (row startCol endCol : Nat) : Bool :=
  (List.range' startCol (endCol - startCol)).any fun col =>
    let idx := row * cols + col
    !(cellEquals (prev.getD idx emptyCell) (curr.getD idx emptyCell))

/-- outputRun from diff.ts: the state delta, the run's characters, and the
front-buffer copy-back. -/
def outputRun (cols : Nat) (curr : List Cell) (row startCol endCol : Nat)
    (runAttr : Nat) (runFg runBg : Option Color)
    (st : AnsiState) (hasSetBg : Bool) (prev : List Cell) :
    String × AnsiState × Bool × List Cell :=
  let offset := row * cols
  let gsc := generateStateChange st hasSetBg runAttr runFg runBg
  let output := if gsc.1 != "" then gsc.1 else ""
  let output := (List.range' startCol (endCol - startCol)).foldl
    (fun s i => s ++ unpackChar (curr.getD (offset + i) emptyCell)) output
  let prev' := (List.range' startCol (endCol - startCol)).foldl
    (fun p i => p.set (offset + i) (curr.getD (offset + i) emptyCell)) prev
  (output, gsc.2.1, gsc.2.2, prev')

/-- The mutable locals of one computeDiff frame: accumulated output, last
cursor position (`-1` initially, as in the source), the front buffer, the
dirty flags, and the tracked ANSI state. -/
structure FrameState where
  output : String
  lastRow : Int
  lastCol : Int
  prev : List Cell
  dirty : List Bool
  ansi : AnsiState
  hasSetBg : Bool
deriving DecidableEq, Repr

/-- The body of one iteration of computeDiff's `while (col < this.cols)`
loop: determine the run starting at `col`, emit it when it has changes
(cursor move, state delta, characters, front-buffer copy-back), and return
the run's end column together with the updated frame state. -/
def colStep (cols : Nat) (curr : List Cell) (row col : Nat) (fs : FrameState) :
    Nat × FrameState :=
  let startCol := col
  let index := row * cols + col
  let startCell := curr.getD index emptyCell
  let runAttr := unpackAttr startCell
  let runFg := unpackFgColor startCell
  let runBg := unpackBgColor startCell
  let runEnd := findRunEnd cols curr row startCol runAttr runFg runBg
  let hasChanges := runHasChanges cols fs.prev curr row startCol runEnd
  let fs' :=
    if hasChanges then
      let fs1 :=
        if fs.lastRow ≠ (row : Int) ∨ fs.lastCol ≠ (startCol : Int) then
          { fs with
            output := fs.output ++ moveTo (row + 1) (startCol + 1)
            lastRow := (row : Int)
            lastCol := (startCol : Int) }
        else fs
      let res := outputRun cols curr row startCol runEnd runAttr runFg runBg
        fs1.ansi fs1.hasSetBg fs1.prev
      { fs1 with
        output := fs1.output ++ res.1
        ansi := res.2.1
        hasSetBg := res.2.2.1
        prev := res.2.2.2
        lastCol := (runEnd : Int) }
    else fs
  (runEnd, fs')

/-- The `while (col < this.cols)` loop inside computeDiff.  Each iteration
advances `col` to `runEnd > col`, so `cols` iterations suffice; the fuel
argument makes that termination bound explicit. -/
def colLoop (cols : Nat) (curr : List Cell) (row : Nat) :
    Nat → Nat → FrameState → FrameState
  | 0, _, fs => fs
  | fuel+1, col, fs =>
    if col < cols then
      let s := colStep cols curr row col fs
      colLoop cols curr row fuel s.1 s.2
    else fs

/-- One iteration of computeDiff's row loop: skip clean rows, otherwise
process the row's runs and clear its dirty flag. -/
def processRow (cols : Nat) (curr : List Cell) (fs : FrameState) (row : Nat) : FrameState :=
  if fs.dirty.getD row false then
    let fs' := colLoop cols curr row cols 0 fs
    { fs' with dirty := fs'.dirty.set row false }
  else fs

/-- The row loop of computeDiff, starting from the frame-initial state
(ANSI state reset to `(0, default, default)`, has-set-background cleared). -/
def initFrame (e : DiffEngine) : FrameState :=
  { output := ""
    lastRow := -1
    lastCol := -1
    prev := e.prev
    dirty := e.dirty
    ansi := ⟨0, none, none⟩
    hasSetBg := false }

/-- The row loop of computeDiff applied to the frame-initial state. -/
def computeDiffFrame (e : DiffEngine) : FrameState :=
  (List.range e.rows).foldl (processRow e.cols e.curr) (initFrame e)

/-- computeDiff from diff.ts: run the frame, then append `ESC [ 0 m` when
the output is non-empty and the tracked final state is non-default (with
JavaScript truthiness on the tracked colors). -/
def computeDiff (e : DiffEngine) : String × DiffEngine :=
  let fs := computeDiffFrame e
  let output :=
    if fs.output ≠ "" ∧ (fs.ansi.attr ≠ 0 ∨ truthyOpt fs.ansi.fg ∨ truthyOpt fs.ansi.bg) then
      fs.output ++ ESC_RESET
    else fs.output
  (output,
    { e with
      prev := fs.prev
      dirty := fs.dirty
      ansiState := fs.ansi
      hasSetBackground := fs.hasSetBg })

end DiffEngine


/-! ## Operation sequences on the diff engine (claim C1) -/

/-- The mutating operations of the diff renderer named by claim C1. -/
inductive DiffOp where
  | setCellWithAttrs (row col : Nat) (char : String) (attrs : Option Attributes)
  | setCell (row col : Nat) (cell : Cell)
  | clear
  | markDirty (row : Nat)
  | markAllDirty
  | resize (rows cols : Nat)
deriving Repr

/-- Apply one mutating operation. -/
def DiffOp.apply (e : DiffEngine) : DiffOp → DiffEngine
  | .setCellWithAttrs r c ch a => e.setCellWithAttrs r c ch a
  | .setCell r c cell => e.setCell r c cell
  | .clear => e.clear
  | .markDirty r => e.markDirty r
  | .markAllDirty => e.markAllDirty
  | .resize r c => e.resize r c

/-- Apply a sequence of mutating operations. -/
def applyOps (e : DiffEngine) (ops : List DiffOp) : DiffEngine :=
  ops.foldl DiffOp.apply e

/-- A diff-engine state reachable from a freshly constructed engine by any
sequence of the mutating operations. -/
def ReachableDiff (e : DiffEngine) : Prop :=
  ∃ rows cols ops, e = applyOps (DiffEngine.make rows cols) ops


/-- JavaScript `String.prototype.endsWith` on whole strings. -/
def strEndsWith (s post : String) : Bool := post.data.isSuffixOf s.data


/-- The structural invariant of a diff-engine state: buffers sized
`rows * cols`, dirty bitmap sized `rows`, and every clean row already
reconciled (`front = back`).  All reachable states satisfy it. -/
def DiffInv (e : DiffEngine) : Prop :=
  e.prev.length = e.rows * e.cols ∧
  e.curr.length = e.rows * e.cols ∧
  e.dirty.length = e.rows ∧
  ∀ r c, r < e.rows → c < e.cols → e.dirty.getD r false = false →
    e.prev.getD (r * e.cols + c) emptyCell = e.curr.getD (r * e.cols + c) emptyCell

/-! ## input/features.ts — terminal and feature enums -/

/-- TerminalType from features.ts (string-enum values kitty/ghostty/iterm/
tmux/ssh/unknown). -/
inductive TerminalType where
  | kitty
  | ghostty
  | iterm
  | tmux
  | ssh
  | unknown
deriving DecidableEq, Repr

/-- SupportLevel from features.ts (the middle level is named `part` because
its source name is reserved in Lean). -/
inductive SupportLevel where
  | full
  | part
  | none
deriving DecidableEq, Repr

/-- InputFeature from features.ts. -/
inductive InputFeature where
  | mouseTracking
  | kittyKeyboard
  | bracketedPaste
  | focusEvents
  | clipboard
deriving DecidableEq, Repr

/-- TERMINAL_FEATURE_SUPPORT from features.ts, as a function on the two
enums (the source's record of records). -/
def TERMINAL_FEATURE_SUPPORT : TerminalType → InputFeature → SupportLevel
  | .kitty, _ => .full
  | .ghostty, _ => .full
  | .iterm, .mouseTracking => .part
  | .iterm, .kittyKeyboard => .none
  | .iterm, _ => .full
  | .tmux, .mouseTracking => .part
  | .tmux, .kittyKeyboard => .none
  | .tmux, .bracketedPaste => .full
  | .tmux, .focusEvents => .none
  | .tmux, .clipboard => .part
  | .ssh, .mouseTracking => .part
  | .ssh, .kittyKeyboard => .none
  | .ssh, .bracketedPaste => .part
  | .ssh, .focusEvents => .none
  | .ssh, .clipboard => .none
  | .unknown, _ => .none

/-! ## input/types.ts — event model -/

/-- KeyModifiers from types.ts. -/
structure KeyModifiers where
  ctrl : Bool
  alt : Bool
  shift : Bool
  meta : Bool
deriving DecidableEq, Repr

/-- The all-false modifier record (JavaScript `{}` with `Boolean(undefined)`
coercion in emitKey). -/
def noMods : KeyModifiers := ⟨false, false, false, false⟩

/-- KeyCode from types.ts: a named key or a character payload (the `{char}`
variant; the source also routes synthetic `Unknown:…` strings through it). -/
inductive KeyCode where
  | up | down | left | right | home | end_ | pageUp | pageDown
  | backspace | delete | insert | enter | tab | escape
  | f1 | f2 | f3 | f4 | f5 | f6 | f7 | f8 | f9 | f10 | f11 | f12
  | printScreen | pause | menu
  | shift | control | alt | meta | capsLock | numLock | scrollLock
  | chr (s : String)
deriving DecidableEq, Repr

/-- KeyEventKind from types.ts (`press` / `repeat` / `release`). -/
inductive KeyEventKind where
  | press
  | repeat_
  | release
deriving DecidableEq, Repr

/-- KeyEvent from types.ts.  The `raw` field carries the originating byte
slice (the source stores its UTF-8 decoding; the bytes themselves are kept
here). -/
structure KeyEvent where
  code : KeyCode
  modifiers : KeyModifiers
  repeat_ : Bool
  kind : Option KeyEventKind
  raw : List Nat
deriving DecidableEq, Repr

/-- MouseButton from types.ts (1 = left, 2 = right, 3 = middle, wheels). -/
inductive MouseButton where
  | b1 | b2 | b3
  | wheelUp | wheelDown | wheelLeft | wheelRight
deriving DecidableEq, Repr

/-- MouseEventKind from types.ts. -/
inductive MouseEventKind where
  | down | up | drag | move | scroll
deriving DecidableEq, Repr

/-- MouseEvent from types.ts (1-based coordinates; X10 coordinates can go
negative in JavaScript, hence `Int`). -/
structure MouseEvent where
  kind : MouseEventKind
  button : Option MouseButton
  x : Int
  y : Int
  modifiers : KeyModifiers
  raw : List Nat
deriving DecidableEq, Repr

/-- InputEvent from types.ts, restricted to the variants the decoder
actually enqueues (key, mouse, paste, clipboard). -/
inductive InputEvent where
  | key (e : KeyEvent)
  | mouse (e : MouseEvent)
  | paste (content : String)
  | clipboard (content : String)
deriving DecidableEq, Repr

/-! ## input/protocols.ts — constants and key maps -/

def MAX_CSI_PARAM : Nat := 0xffffff

def MAX_CSI_PARAMS : Nat := 16

def SEQUENCE_BUFFER_SIZE : Nat := 256

/-- CTRL_CHARS from protocols.ts: control byte → key code. -/
def CTRL_CHARS (byte : Nat) : Option KeyCode :=
  if byte = 9 then some .tab
  else if byte = 13 then some .enter
  else if byte = 27 then some .escape
  else if byte = 127 then some .backspace
  else if byte = 0 then some (.chr (String.singleton (Char.ofNat 0)))
  else if 1 ≤ byte ∧ byte ≤ 26 then
    some (.chr (String.singleton (Char.ofNat (byte + 96))))
  else none

/-- CSI_KEY_MAP from protocols.ts: lookup string → key code. -/
def CSI_KEY_MAP (s : String) : Option KeyCode :=
  if s = "A" then some .up
  else if s = "B" then some .down
  else if s = "C" then some .right
  else if s = "D" then some .left
  else if s = "H" then some .home
  else if s = "F" then some .end_
  else if s = "1~" then some .home
  else if s = "2~" then some .insert
  else if s = "3~" then some .delete
  else if s = "4~" then some .end_
  else if s = "5~" then some .pageUp
  else if s = "6~" then some .pageDown
  else if s = "7~" then some .home
  else if s = "8~" then some .end_
  else if s = "11~" then some .f1
  else if s = "12~" then some .f2
  else if s = "13~" then some .f3
  else if s = "14~" then some .f4
  else if s = "15~" then some .f5
  else if s = "17~" then some .f6
  else if s = "18~" then some .f7
  else if s = "19~" then some .f8
  else if s = "20~" then some .f9
  else if s = "21~" then some .f10
  else if s = "23~" then some .f11
  else if s = "24~" then some .f12
  else if s = "1;2P" then some .f1
  else if s = "1;2Q" then some .f2
  else if s = "1;2R" then some .f3
  else if s = "1;2S" then some .f4
  else none

/-- SS3_KEY_MAP from protocols.ts. -/
def SS3_KEY_MAP (s : String) : Option KeyCode :=
  if s = "P" then some .f1
  else if s = "Q" then some .f2
  else if s = "R" then some .f3
  else if s = "S" then some .f4
  else if s = "A" then some .up
  else if s = "B" then some .down
  else if s = "C" then some .right
  else if s = "D" then some .left
  else if s = "H" then some .home
  else if s = "F" then some .end_
  else none

/-- SGR_BUTTON_MAP from protocols.ts (keys are numbers; negative or other
codes are absent). -/
def SGR_BUTTON_MAP (code : Int) : Option MouseButton :=
  if code = 0 then some .b1
  else if code = 1 then some .b3
  else if code = 2 then some .b2
  else if code = 64 then some .wheelUp
  else if code = 65 then some .wheelDown
  else if code = 66 then some .wheelLeft
  else if code = 67 then some .wheelRight
  else none

/-- JavaScript 32-bit `&` of a possibly negative number with a small
non-negative mask: reinterpret the two's-complement low 32 bits and mask. -/
def jsAnd (a : Int) (b : Nat) : Nat :=
  (a % 4294967296).toNat &&& b

/-! ## input/terminal-quirks.ts

The source derives the ambient terminal type from the environment and caches
it; here the ambient type is a field of the decoder state (`termType`). -/

/-- TERMINAL_KEY_REMAP from terminal-quirks.ts. -/
def TERMINAL_KEY_REMAP (t : TerminalType) (unicode : Nat) : Option KeyCode :=
  match t with
  | .iterm =>
    if unicode = 57442 then some .control
    else if unicode = 57443 then some .alt
    else if unicode = 57444 then some .meta
    else if unicode = 57447 then some .shift
    else if unicode = 57449 then some .alt
    else if unicode = 57450 then some .meta
    else none
  | .unknown =>
    if unicode = 57442 then some .control
    else if unicode = 57443 then some .alt
    else if unicode = 57444 then some .meta
    else none
  | _ => none

/-- shouldApplyQuirks from terminal-quirks.ts. -/
def shouldApplyQuirks (t : TerminalType) : Bool :=
  match t with
  | .kitty => false
  | .ghostty => false
  | _ => true

/-- remapKeyCode from terminal-quirks.ts. -/
def remapKeyCode (t : TerminalType) (unicode : Nat) (originalKey : KeyCode) : KeyCode :=
  if shouldApplyQuirks t then
    match TERMINAL_KEY_REMAP t unicode with
    | some k => k
    | none => originalKey
  else originalKey

/-- META_CONTROL_CHAR_REMAP plus remapControlChar from terminal-quirks.ts:
only iTerm remaps `0x15` to Meta+Backspace. -/
def remapControlChar (t : TerminalType) (byte : Nat) :
    Option (KeyCode × KeyModifiers) :=
  if t = .iterm ∧ byte = 21 then
    some (.backspace, { noMods with meta := true })
  else none

/-- ALT_ESCAPE_CHAR_REMAP plus remapAltEscapeChar from terminal-quirks.ts:
`ESC b` / `ESC f` become Alt+Left / Alt+Right when quirks apply. -/
def remapAltEscapeChar (t : TerminalType) (char : String) : Option KeyCode :=
  if shouldApplyQuirks t then
    if char = "b" then some .left
    else if char = "f" then some .right
    else none
  else none

/-! ## input/decoder.ts — the input state machine -/

/-- ParserState from decoder.ts. -/
inductive ParserState where
  | idle
  | escape
  | csi
  | csiParam
  | csiIntermediate
  | ss3
  | osc
  | dcs
  | paste
deriving DecidableEq, Repr

/-- The fields of `InputDecoder`.  The raw `Uint8Array` plus `bufferPos` pair
is modelled as the list of the first `bufferPos` stored bytes (stale bytes
beyond the position are never read).  `termType` is the ambient terminal
type that the quirks helpers read from the environment. -/
structure DecoderState where
  state : ParserState
  buffer : List Nat
  params : List Nat
  intermediates : String
  final : String
  events : List InputEvent
  lastMouseButton : Option MouseButton
  pasteBuffer : String
  inPaste : Bool
  oscBuffer : String
  oscParam : String
  kittyEnabled : Bool
  quirksEnabled : Bool
  physShift : Bool
  physCtrl : Bool
  physAlt : Bool
  physMeta : Bool
  termType : TerminalType
deriving DecidableEq, Repr

namespace InputDecoder

/-- reset from decoder.ts. -/
def reset (d : DecoderState) : DecoderState :=
  { d with
    state := .idle
    buffer := []
    params := []
    intermediates := ""
    final := ""
    oscBuffer := ""
    oscParam := "" }

/-- The constructor of decoder.ts `InputDecoder` (`options?.kittyKeyboard ??
false`, `options?.quirks ?? true`, then `reset()`). -/
def make (kittyKeyboard quirks : Option Bool) (termType : TerminalType) : DecoderState :=
  { state := .idle
    buffer := []
    params := []
    intermediates := ""
    final := ""
    events := []
    lastMouseButton := Option.none
    pasteBuffer := ""
    inPaste := false
    oscBuffer := ""
    oscParam := ""
    kittyEnabled := kittyKeyboard.getD false
    quirksEnabled := quirks.getD true
    physShift := false
    physCtrl := false
    physAlt := false
    physMeta := false
    termType := termType }

/-- emitKey from decoder.ts: push the event, then reset the parser. -/
def emitKey (d : DecoderState) (code : KeyCode) (isCtrl : Bool)
    (additionalMods : KeyModifiers) (kind : Option KeyEventKind) : DecoderState :=
  let modifiers : KeyModifiers :=
    { ctrl := isCtrl || additionalMods.ctrl
      alt := additionalMods.alt
      shift := additionalMods.shift
      meta := additionalMods.meta }
  let event : KeyEvent :=
    { code := code
      modifiers := modifiers
      repeat_ := kind == some .repeat_
      kind := kind
      raw := d.buffer }
  reset { d with events := d.events ++ [InputEvent.key event] }

/-- emitMouse from decoder.ts (pushes the event without resetting). -/
def emitMouse (d : DecoderState) (button x y : Int) (isSgr : Bool) : DecoderState :=
  let modifiers : KeyModifiers :=
    { shift := jsAnd button 0x04 != 0
      alt := jsAnd button 0x08 != 0
      ctrl := jsAnd button 0x10 != 0
      meta := jsAnd button 0x20 != 0 }
  let buttonCode : Int :=
    if isSgr then (if button ≥ 64 ∧ button ≤ 67 then button else (jsAnd button 0x03 : Nat))
    else (jsAnd button 0x43 : Nat)
  let isRelease := isSgr && d.final == "m"
  let isMotion := jsAnd button 0x20 != 0
  let resKind :=
    match SGR_BUTTON_MAP buttonCode with
    | some mapped =>
      if mapped = MouseButton.wheelUp ∨ mapped = MouseButton.wheelDown
          ∨ mapped = MouseButton.wheelLeft ∨ mapped = MouseButton.wheelRight then
        (MouseEventKind.scroll, some mapped, d.lastMouseButton)
      else if isRelease then (MouseEventKind.up, some mapped, Option.none)
      else if isMotion then
        ((if d.lastMouseButton.isSome then MouseEventKind.drag else MouseEventKind.move),
          some mapped, d.lastMouseButton)
      else (MouseEventKind.down, some mapped, some mapped)
    | Option.none =>
      if isMotion then
        ((if d.lastMouseButton.isSome then MouseEventKind.drag else MouseEventKind.move),
          d.lastMouseButton, d.lastMouseButton)
      else (MouseEventKind.down, Option.none, d.lastMouseButton)
  let event : MouseEvent :=
    { kind := resKind.1
      button := resKind.2.1
      x := x
      y := y
      modifiers := modifiers
      raw := d.buffer }
  { d with events := d.events ++ [InputEvent.mouse event], lastMouseButton := resKind.2.2 }

/-- extractModifiers from decoder.ts.  `params[1] - 1` is a JavaScript
number, so a zero parameter yields `-1`, whose 32-bit bit pattern sets every
modifier. -/
def extractModifiers (d : DecoderState) : KeyModifiers :=
  if d.params.length < 2 then noMods
  else
    match d.params.get? 1 with
    | Option.none => noMods
    | some secondParam =>
      let modParam : Int := (secondParam : Int) - 1
      { shift := jsAnd modParam 1 != 0
        alt := jsAnd modParam 2 != 0
        ctrl := jsAnd modParam 4 != 0
        meta := jsAnd modParam 8 != 0 }

/-- extractModifiersFromParam from decoder.ts (falsy or 1 → none). -/
def extractModifiersFromParam (param : Nat) : KeyModifiers :=
  if param = 0 ∨ param = 1 then noMods
  else
    let modParam := param - 1
    { shift := modParam &&& 1 != 0
      alt := modParam &&& 2 != 0
      ctrl := modParam &&& 4 != 0
      meta := modParam &&& 8 != 0 }

/-- extractKittyModifiers from decoder.ts. -/
def extractKittyModifiers (modifiers : Nat) : KeyModifiers :=
  if modifiers = 0 ∨ modifiers = 1 then noMods
  else
    let mod := modifiers - 1
    { shift := mod &&& 1 != 0
      alt := mod &&& 2 != 0
      ctrl := mod &&& 4 != 0
      meta := mod &&& 8 != 0 }

/-- mapUnicodeToKeyCode from decoder.ts. -/
def mapUnicodeToKeyCode (unicode : Nat) : Option KeyCode :=
  if unicode = 13 then some .enter
  else if unicode = 27 then some .escape
  else if unicode = 9 then some .tab
  else if unicode = 127 then some .backspace
  else if unicode = 0x1b5b41 then some .up
  else if unicode = 0x1b5b42 then some .down
  else if unicode = 0x1b5b43 then some .right
  else if unicode = 0x1b5b44 then some .left
  else if unicode = 0x1b4f50 then some .f1
  else if unicode = 0x1b4f51 then some .f2
  else if unicode = 0x1b4f52 then some .f3
  else if unicode = 0x1b4f53 then some .f4
  else if unicode = 57441 then some .shift
  else if unicode = 57442 then some .shift
  else if unicode = 57443 then some .control
  else if unicode = 57444 then some .control
  else if unicode = 57445 then some .alt
  else if unicode = 57446 then some .alt
  else if unicode = 57447 then some .meta
  else if unicode = 57448 then some .meta
  else if unicode = 57449 then some .capsLock
  else if unicode = 57450 then some .numLock
  else if unicode = 57451 then some .scrollLock
  else if unicode = 0x1b5b33 then some .delete
  else if unicode = 2221 then some .delete
  else if unicode = 2 then some .insert
  else if unicode = 5 then some .pageUp
  else if unicode = 6 then some .pageDown
  else if unicode = 1 then some .home
  else if unicode = 4 then some .end_
  else Option.none

/-- lookupCSIKey from decoder.ts. -/
def lookupCSIKey (d : DecoderState) : Option KeyCode :=
  let lookupKey :=
    (if d.params.length > 0 then joinSep ";" (d.params.map toString) else "")
      ++ d.intermediates ++ d.final
  match CSI_KEY_MAP lookupKey with
  | some k => some k
  | Option.none => CSI_KEY_MAP d.final

/-- handleControlChar from decoder.ts. -/
def handleControlChar (d : DecoderState) (byte : Nat) : DecoderState :=
  match (if d.quirksEnabled then remapControlChar d.termType byte else Option.none) with
  | some remapped => emitKey d remapped.1 false remapped.2 Option.none
  | Option.none =>
    match CTRL_CHARS byte with
    | some code =>
      let isCtrlChar :=
        byte < 0x20 && byte != 0x09 && byte != 0x0a && byte != 0x0d && byte != 0x1b
      emitKey d code isCtrlChar noMods Option.none
    | Option.none => d

/-- handleEscapeChar from decoder.ts. -/
def handleEscapeChar (d : DecoderState) (byte : Nat) : DecoderState :=
  if 0x20 ≤ byte ∧ byte < 0x7f then
    let char := String.singleton (Char.ofNat byte)
    match (if d.quirksEnabled then remapAltEscapeChar d.termType char else Option.none) with
    | some remappedKey => emitKey d remappedKey false { noMods with alt := true } Option.none
    | Option.none => emitKey d (.chr char) false { noMods with alt := true } Option.none
  else
    emitKey d (.chr ("Unknown:ESC+" ++ String.singleton (Char.ofNat byte))) false noMods
      Option.none

/-- handleX10Mouse from decoder.ts (buffer bytes offset by 32; a byte below
32 yields a negative JavaScript number). -/
def handleX10Mouse (d : DecoderState) : DecoderState :=
  if d.buffer.length < 6 then d
  else
    match d.buffer.get? 3, d.buffer.get? 4, d.buffer.get? 5 with
    | some buttonByte, some xByte, some yByte =>
      emitMouse d ((buttonByte : Int) - 32) ((xByte : Int) - 32) ((yByte : Int) - 32) false
    | _, _, _ => d

/-- handleSGRMouseComplete from decoder.ts (`|| 0` / `|| 1` defaulting of
falsy parameter values). -/
def handleSGRMouseComplete (d : DecoderState) : DecoderState :=
  if d.params.length < 3 then d
  else
    let button := d.params.getD 0 0
    let x := let v := d.params.getD 1 0; if v = 0 then 1 else v
    let y := let v := d.params.getD 2 0; if v = 0 then 1 else v
    emitMouse d (button : Int) (x : Int) (y : Int) true

/-- The modifier-clearing workaround of handleKittyKeyboard: a reported
modifier is dropped when the tracked physical state says it is released
(`if (!phys && reported) adjusted = false`, i.e. reported AND physical). -/
def adjustByPhysical (d : DecoderState) (km : KeyModifiers) : KeyModifiers :=
  if d.quirksEnabled then
    { shift := km.shift && d.physShift
      ctrl := km.ctrl && d.physCtrl
      alt := km.alt && d.physAlt
      meta := km.meta && d.physMeta }
  else km

/-- handleKittyKeyboard's `modifiers` local: 1 when only one parameter was
sent, otherwise `params[1]`. -/
def kittyModParam (d : DecoderState) : Nat :=
  if d.params.length = 1 then 1 else d.params.getD 1 0

/-- handleKittyKeyboard's `eventType` local: 1 unless a third parameter was
sent. -/
def kittyEventTypeParam (d : DecoderState) : Nat :=
  if d.params.length = 1 ∨ d.params.length = 2 then 1 else d.params.getD 2 0

/-- handleKittyKeyboard's event-type switch (unknown values default to
press). -/
def kittyKindOf (eventType : Nat) : KeyEventKind :=
  if eventType = 1 then .press
  else if eventType = 2 then .repeat_
  else if eventType = 3 then .release
  else .press

/-- handleKittyKeyboard's `actualKeyCode` local: terminal-specific
remapping applies to named keys when quirks are enabled. -/
def hkkActualKeyCode (d : DecoderState) (unicode : Nat) (keyCode : KeyCode) : KeyCode :=
  match keyCode with
  | .chr _ => keyCode
  | _ => if d.quirksEnabled then remapKeyCode d.termType unicode keyCode else keyCode

/-- handleKittyKeyboard's physical-modifier tracking update (`d1` in the
source): a press/release of a modifier key records its new state. -/
def hkkPhysUpdate (d : DecoderState) (key : KeyCode) (kind : KeyEventKind) : DecoderState :=
  if kind = .release then
    match key with
    | .shift => { d with physShift := false }
    | .control => { d with physCtrl := false }
    | .alt => { d with physAlt := false }
    | _ => { d with physMeta := false }
  else if kind = .press then
    match key with
    | .shift => { d with physShift := true }
    | .control => { d with physCtrl := true }
    | .alt => { d with physAlt := true }
    | _ => { d with physMeta := true }
  else d

/-- handleKittyKeyboard's self-modifier removal (a Shift key event never
carries the Shift modifier, and so on). -/
def clearSelfModifier (key : KeyCode) (m : KeyModifiers) : KeyModifiers :=
  match key with
  | .shift => { m with shift := false }
  | .control => { m with ctrl := false }
  | .alt => { m with alt := false }
  | _ => { m with meta := false }

/-- handleKittyKeyboard's modifier-key branch: update tracked physical
state, adjust the reported modifiers by it, drop the self-modifier, emit. -/
def hkkModifierKeyBranch (d : DecoderState) (actualKeyCode : KeyCode)
    (km : KeyModifiers) (kind : KeyEventKind) : DecoderState :=
  emitKey (hkkPhysUpdate d actualKeyCode kind) actualKeyCode false
    (clearSelfModifier actualKeyCode (adjustByPhysical (hkkPhysUpdate d actualKeyCode kind) km))
    (some kind)

/-- handleKittyKeyboard's named-key path (keyCode from
mapUnicodeToKeyCode): the modifier branch emits the remapped key, the
non-modifier branch emits the unremapped keyCode. -/
def hkkNamed (d : DecoderState) (unicode : Nat) (km : KeyModifiers) (kind : KeyEventKind)
    (keyCode : KeyCode) : DecoderState :=
  if hkkActualKeyCode d unicode keyCode = .shift ∨ hkkActualKeyCode d unicode keyCode = .control
      ∨ hkkActualKeyCode d unicode keyCode = .alt
      ∨ hkkActualKeyCode d unicode keyCode = .meta then
    hkkModifierKeyBranch d (hkkActualKeyCode d unicode keyCode) km kind
  else
    emitKey d keyCode false (adjustByPhysical d km) (some kind)

/-- handleKittyKeyboard from decoder.ts (locals are the helper functions
above, applied at the same arguments as the source's consts). -/
def handleKittyKeyboard (d : DecoderState) : DecoderState :=
  if d.params.length = 0 then d
  else if d.params.getD 0 0 ≠ 0 then
    if d.params.getD 0 0 = 27 ∧ kittyKindOf (kittyEventTypeParam d) = .release
        ∧ ((extractKittyModifiers (kittyModParam d)).ctrl
            ∨ (extractKittyModifiers (kittyModParam d)).meta) then
      emitKey d .escape false (extractKittyModifiers (kittyModParam d)) Option.none
    else
      match mapUnicodeToKeyCode (d.params.getD 0 0) with
      | some keyCode =>
        hkkNamed d (d.params.getD 0 0) (extractKittyModifiers (kittyModParam d))
          (kittyKindOf (kittyEventTypeParam d)) keyCode
      | Option.none =>
        if d.params.getD 0 0 ≥ 32 then
          emitKey d (.chr (String.singleton (Char.ofNat (d.params.getD 0 0)))) false
            (adjustByPhysical d (extractKittyModifiers (kittyModParam d)))
            (some (kittyKindOf (kittyEventTypeParam d)))
        else d
  else d

/-- Split at the first occurrence of a separator character
(`indexOf`/`substring` in processOSC). -/
def strSplitFirst (s : String) (c : Char) : String × String :=
  (String.mk (s.data.takeWhile (fun x => x ≠ c)),
    String.mk ((s.data.dropWhile (fun x => x ≠ c)).drop 1))

/-- handleOSCSequence from decoder.ts.  The OSC 52 branch decodes the
payload from base64; that decoding is outside the claims' scope, so the
clipboard event carries the undecoded base64 text. -/
def handleOSCSequence (d : DecoderState) : DecoderState :=
  let d1 :=
    if d.oscParam = "52" then
      let parts := d.oscBuffer.splitOn ";"
      if parts.length ≥ 2 ∧ parts.getD 0 "" = "c" then
        { d with events := d.events ++ [InputEvent.clipboard (parts.getD 1 "")] }
      else d
    else d
  { d1 with oscBuffer := "", oscParam := "" }

/-- handleCSISequence's event-kind decode for navigation/function keys
(an optional trailing event-type parameter). -/
def csiEventKindOf (e : Option Nat) : Option KeyEventKind :=
  if e = some 1 then some .press
  else if e = some 2 then some .repeat_
  else if e = some 3 then some .release
  else Option.none

/-- handleCSISequence's `modParam` local for navigation/function keys:
`params[1] || 1`. -/
def csiModParam (d : DecoderState) : Nat :=
  if d.params.getD 1 0 = 0 then 1 else d.params.getD 1 0

/-- handleCSISequence's A/B/C/D/H/F navigation-key branch. -/
def csiNavKeyBranch (d : DecoderState) : DecoderState :=
  emitKey d
    (if d.final = "A" then .up
      else if d.final = "B" then .down
      else if d.final = "C" then .right
      else if d.final = "D" then .left
      else if d.final = "H" then .home
      else .end_)
    false
    (if csiModParam d > 1 then extractModifiers d else noMods)
    (csiEventKindOf (d.params.get? (d.params.length - 1)))

/-- handleCSISequence's P/Q/R/S function-key branch. -/
def csiFnKeyBranch (d : DecoderState) : DecoderState :=
  emitKey d
    (if d.final = "P" then .f1
      else if d.final = "Q" then .f2
      else if d.final = "R" then .f3
      else .f4)
    false
    (if csiModParam d > 1 then extractModifiers d else noMods)
    (csiEventKindOf (d.params.get? (d.params.length - 1)))

/-- handleCSISequence's fallback: generic CSI key lookup, emitting an
Unknown: pseudo-key when nothing matches. -/
def csiFallback (d : DecoderState) : DecoderState :=
  match lookupCSIKey d with
  | some key =>
    emitKey d key false (extractModifiers d)
      (if d.kittyEnabled then some .press else Option.none)
  | Option.none =>
    emitKey d (.chr ("Unknown:" ++ d.final)) false (extractModifiers d)
      (if d.kittyEnabled then some .press else Option.none)

/-- Case 1 of handleCSISequence's tilde branch: last parameter is an event
type 1..3 with second-last parameter 1. -/
def csiTildeCase1 (d : DecoderState) : Option DecoderState :=
  match d.params.get? (d.params.length - 1) with
  | some v =>
    if 1 ≤ v ∧ v ≤ 3 ∧ d.params.get? (d.params.length - 2) = some 1 then
      match CSI_KEY_MAP (toString (d.params.getD 0 0) ++ "~") with
      | some key =>
        some (emitKey d key false noMods
          (if v = 1 then some .press
            else if v = 2 then some .repeat_
            else some .release))
      | Option.none => Option.none
    else Option.none
  | Option.none => Option.none

/-- handleCSISequence's tilde-suffix branch (case 1, then case 2, then the
generic fallback). -/
def csiTildeBranch (d : DecoderState) : DecoderState :=
  match csiTildeCase1 d with
  | some d' => d'
  | Option.none =>
    match CSI_KEY_MAP (toString (d.params.getD 0 0) ++ "~") with
    | some key =>
      emitKey d key false
        (if d.params.getD 1 0 > 1 then extractModifiersFromParam (d.params.getD 1 0)
          else noMods)
        (if d.params.length = 2 then (if d.kittyEnabled then some .press else Option.none)
          else
            match d.params.get? (d.params.length - 1) with
            | some 1 => some .press
            | some 2 => some .repeat_
            | some 3 => some .release
            | _ => Option.none)
    | Option.none => csiFallback d

/-- handleCSISequence from decoder.ts (each branch body is the helper
definition above). -/
def handleCSISequence (d : DecoderState) : DecoderState :=
  if d.final = "~" ∧ d.params.get? 0 = some 200 then
    { d with state := .paste, inPaste := true, pasteBuffer := "", buffer := [] }
  else if d.final = "u" ∧ d.intermediates = "" then
    handleKittyKeyboard d
  else if d.intermediates = "<" ∧ (d.final = "M" ∨ d.final = "m") then
    handleSGRMouseComplete d
  else if d.final = "M" then
    handleX10Mouse d
  else if (d.final = "A" ∨ d.final = "B" ∨ d.final = "C" ∨ d.final = "D" ∨ d.final = "H"
      ∨ d.final = "F") ∧ d.params.length ≥ 2 then
    csiNavKeyBranch d
  else if (d.final = "P" ∨ d.final = "Q" ∨ d.final = "R" ∨ d.final = "S")
      ∧ d.params.length ≥ 2 then
    csiFnKeyBranch d
  else if d.final = "~" ∧ d.params.length ≥ 2 then
    csiTildeBranch d
  else
    csiFallback d

/-- processIdle from decoder.ts. -/
def processIdle (d : DecoderState) (byte : Nat) : DecoderState :=
  if byte = 0x1b then
    { d with state := .escape, buffer := [byte] }
  else if byte < 0x20 ∨ byte = 0x7f then
    if d.kittyEnabled then
      match (if d.quirksEnabled then remapControlChar d.termType byte else Option.none) with
      | some _ => handleControlChar d byte
      | Option.none => d
    else handleControlChar d byte
  else
    if !d.kittyEnabled then
      emitKey d (.chr (String.singleton (Char.ofNat byte))) false noMods Option.none
    else d

/-- processEscape from decoder.ts. -/
def processEscape (d : DecoderState) (byte : Nat) : DecoderState :=
  if byte = 0x5b then { d with state := .csi, params := [], intermediates := "" }
  else if byte = 0x4f then { d with state := .ss3 }
  else if byte = 0x50 then { d with state := .dcs }
  else if byte = 0x5d then { d with state := .osc, oscBuffer := "", oscParam := "" }
  else reset (handleEscapeChar d byte)

/-- processCSI from decoder.ts. -/
def processCSI (d : DecoderState) (byte : Nat) : DecoderState :=
  if 0x30 ≤ byte ∧ byte ≤ 0x39 then
    { d with state := .csiParam, params := d.params ++ [byte - 0x30] }
  else if byte = 0x3b ∨ byte = 0x3a then
    { d with params := d.params ++ [0], state := .csiParam }
  else if byte = 0x3c then
    { d with intermediates := "<", state := .csiParam }
  else if 0x20 ≤ byte ∧ byte ≤ 0x2f then
    { d with intermediates := String.singleton (Char.ofNat byte), state := .csiIntermediate }
  else if 0x40 ≤ byte ∧ byte ≤ 0x7e then
    let d1 := handleCSISequence { d with final := String.singleton (Char.ofNat byte) }
    if d1.state ≠ .paste then reset d1 else d1
  else reset d

/-- processCSIParam from decoder.ts: digits accumulate into the last
parameter only while it is below `MAX_CSI_PARAM`; separators push a new
parameter only below `MAX_CSI_PARAMS` entries. -/
def processCSIParam (d : DecoderState) (byte : Nat) : DecoderState :=
  if 0x30 ≤ byte ∧ byte ≤ 0x39 then
    if d.params.length = 0 then
      { d with params := d.params ++ [byte - 0x30] }
    else
      let lastParam := d.params.length - 1
      match d.params.get? lastParam with
      | some currentValue =>
        if currentValue < MAX_CSI_PARAM then
          { d with params := d.params.set lastParam (currentValue * 10 + (byte - 0x30)) }
        else d
      | Option.none => d
  else if byte = 0x3b ∨ byte = 0x3a then
    if d.params.length < MAX_CSI_PARAMS then { d with params := d.params ++ [0] } else d
  else if 0x20 ≤ byte ∧ byte ≤ 0x2f then
    { d with
      intermediates := d.intermediates ++ String.singleton (Char.ofNat byte)
      state := .csiIntermediate }
  else if 0x40 ≤ byte ∧ byte ≤ 0x7e then
    let d1 := handleCSISequence { d with final := String.singleton (Char.ofNat byte) }
    if d1.state ≠ .paste then reset d1 else d1
  else reset d

/-- processCSIIntermediate from decoder.ts: a digit after an intermediate
byte pushes a fresh parameter (with no entry-count check). -/
def processCSIIntermediate (d : DecoderState) (byte : Nat) : DecoderState :=
  if 0x30 ≤ byte ∧ byte ≤ 0x39 then
    { d with state := .csiParam, params := d.params ++ [byte - 0x30] }
  else if 0x20 ≤ byte ∧ byte ≤ 0x2f then
    { d with intermediates := d.intermediates ++ String.singleton (Char.ofNat byte) }
  else if 0x40 ≤ byte ∧ byte ≤ 0x7e then
    let d1 := handleCSISequence { d with final := String.singleton (Char.ofNat byte) }
    if d1.state ≠ .paste then reset d1 else d1
  else reset d

/-- processSS3 from decoder.ts. -/
def processSS3 (d : DecoderState) (byte : Nat) : DecoderState :=
  match SS3_KEY_MAP (String.singleton (Char.ofNat byte)) with
  | some key => reset (emitKey d key false noMods Option.none)
  | Option.none =>
    reset (emitKey d (.chr ("Unknown:SS3+" ++ String.singleton (Char.ofNat byte))) false noMods
      Option.none)

/-- processPaste from decoder.ts. -/
def processPaste (d : DecoderState) (byte : Nat) : DecoderState :=
  let pb := d.pasteBuffer ++ String.singleton (Char.ofNat byte)
  if pb.length ≥ 6 ∧ strEndsWith pb "\x1b[201~" then
    reset
      { d with
        events := d.events ++ [InputEvent.paste (pb.dropRight 6)]
        pasteBuffer := ""
        inPaste := false }
  else { d with pasteBuffer := pb }

/-- processOSC from decoder.ts. -/
def processOSC (d : DecoderState) (byte : Nat) : DecoderState :=
  if byte = 0x1b then { d with oscBuffer := d.oscBuffer ++ "\x1b" }
  else if byte = 0x5c ∧ strEndsWith d.oscBuffer "\x1b" then
    reset (handleOSCSequence { d with oscBuffer := d.oscBuffer.dropRight 1 })
  else if byte = 0x07 then
    reset (handleOSCSequence d)
  else
    let d1 := { d with oscBuffer := d.oscBuffer ++ String.singleton (Char.ofNat byte) }
    if d1.oscBuffer.length > 10000 then reset d1
    else if d1.oscParam = "" ∧ strIncludes d1.oscBuffer ";" then
      let split := strSplitFirst d1.oscBuffer ';'
      { d1 with oscParam := split.1, oscBuffer := split.2 }
    else d1

/-- processByte from decoder.ts: store the byte in the raw buffer (when
below the 256-byte cap), then dispatch on the parser state. -/
def processByte (d : DecoderState) (byte : Nat) : DecoderState :=
  let d0 :=
    if d.buffer.length < SEQUENCE_BUFFER_SIZE then { d with buffer := d.buffer ++ [byte] }
    else d
  match d0.state with
  | .idle => processIdle d0 byte
  | .escape => processEscape d0 byte
  | .csi => processCSI d0 byte
  | .csiParam => processCSIParam d0 byte
  | .csiIntermediate => processCSIIntermediate d0 byte
  | .ss3 => processSS3 d0 byte
  | .paste => processPaste d0 byte
  | .osc => processOSC d0 byte
  | .dcs =>
    if byte = 0x1b then { d0 with state := .escape }
    else if byte = 0x07 then reset d0
    else d0

/-- feed from decoder.ts: iterate processByte; `Uint8Array` constrains the
fed values to bytes, modelled by reducing modulo 256. -/
def feed (d : DecoderState) (data : List Nat) : DecoderState :=
  data.foldl (fun acc b => processByte acc (b % 256)) d

end InputDecoder

/-! ## input/detection.ts — terminal type detection and the seeded matrix -/

/-- The five environment variables detection reads (empty string models an
unset variable, as the source coalesces with `|| ''`). -/
structure Env where
  term : String
  termProgram : String
  termProgramVersion : String
  sshConnection : String
  tmux : String
deriving DecidableEq, Repr

/-- detectTerminalType from detection.ts: result type, detected version,
isSSH, isTmux.  The source's nested `if (!termProgram) { if ... }` block
is flattened into conjunctions. -/
def detectTerminalType (env : Env) : TerminalType × Option String × Bool × Bool :=
  if strToLower env.termProgram = "kitty" then
    (.kitty, some env.termProgramVersion, env.sshConnection.length > 0, env.tmux.length > 0)
  else if strToLower env.termProgram = "ghostty" then
    (.ghostty, some env.termProgramVersion, env.sshConnection.length > 0, env.tmux.length > 0)
  else if strToLower env.termProgram = "iterm.app" then
    (.iterm, some env.termProgramVersion, env.sshConnection.length > 0, env.tmux.length > 0)
  else if strIncludes (strToLower env.termProgram) "zed" ∨ strIncludes env.term "alacritty" then
    (.iterm, some env.termProgramVersion, env.sshConnection.length > 0, env.tmux.length > 0)
  else if env.termProgram = "" ∧ strIncludes env.term "kitty" then
    (.kitty, some env.termProgramVersion, env.sshConnection.length > 0, env.tmux.length > 0)
  else if env.termProgram = "" ∧ strIncludes env.term "ghostty" then
    (.ghostty, some env.termProgramVersion, env.sshConnection.length > 0, env.tmux.length > 0)
  else if env.tmux.length > 0 then
    (.tmux, Option.none, env.sshConnection.length > 0, env.tmux.length > 0)
  else if env.sshConnection.length > 0 then
    (.ssh, Option.none, env.sshConnection.length > 0, env.tmux.length > 0)
  else
    (.unknown, Option.none, env.sshConnection.length > 0, env.tmux.length > 0)

/-- The SSH block of getBaseFeatureSupport from detection.ts. -/
def sshDowngrade (terminalType : TerminalType) (isSSH : Bool)
    (support : InputFeature → SupportLevel) : InputFeature → SupportLevel :=
  if isSSH = true ∧ terminalType ≠ .ssh then
    fun f =>
      match f with
      | .clipboard => if support .clipboard = .full then .part else support .clipboard
      | .focusEvents => if support .focusEvents = .full then .none else support .focusEvents
      | _ => support f
  else support

/-- The tmux block of getBaseFeatureSupport from detection.ts. -/
def tmuxDowngrade (terminalType : TerminalType) (isTmux : Bool)
    (support : InputFeature → SupportLevel) : InputFeature → SupportLevel :=
  if isTmux = true ∧ terminalType ≠ .tmux then
    fun f =>
      match f with
      | .kittyKeyboard => if support .kittyKeyboard = .full then .none else support .kittyKeyboard
      | .focusEvents => if support .focusEvents = .full then .none else support .focusEvents
      | _ => support f
  else support

/-- getBaseFeatureSupport from detection.ts: seed from the static matrix,
apply the SSH limitations, then the tmux limitations. -/
def getBaseFeatureSupport (terminalType : TerminalType) (isSSH isTmux : Bool) :
    InputFeature → SupportLevel :=
  tmuxDowngrade terminalType isTmux
    (sshDowngrade terminalType isSSH (TERMINAL_FEATURE_SUPPORT terminalType))

/-- Modelled from the spec: "Derive a terminalType with this priority:
TERM_PROGRAM, then TERM substring, then Tmux, then SSH, then Unknown" —
the TERM substring stage is consulted whenever the TERM_PROGRAM stage
does not recognise the program, regardless of whether TERM_PROGRAM is
set. -/
def detectTerminalTypeSpec (env : Env) : TerminalType :=
  if strToLower env.termProgram = "kitty" then .kitty
  else if strToLower env.termProgram = "ghostty" then .ghostty
  else if strToLower env.termProgram = "iterm.app" then .iterm
  else if strIncludes (strToLower env.termProgram) "zed" then .iterm
  else if strIncludes env.term "kitty" then .kitty
  else if strIncludes env.term "ghostty" then .ghostty
  else if strIncludes env.term "alacritty" then .iterm
  else if env.tmux.length > 0 then .tmux
  else if env.sshConnection.length > 0 then .ssh
  else .unknown

/-- Modelled from the spec: the amended priority chain that the code
implements — TERM_PROGRAM values kitty/ghostty/iterm.app/contains-zed (or
alacritty appearing in TERM) decide first; the kitty/ghostty TERM
substring stage runs only when TERM_PROGRAM is unset; then Tmux, then
SSH, then Unknown. -/
def detectTerminalTypeAmended (env : Env) : TerminalType :=
  if strToLower env.termProgram = "kitty" then .kitty
  else if strToLower env.termProgram = "ghostty" then .ghostty
  else if strToLower env.termProgram = "iterm.app" then .iterm
  else if strIncludes (strToLower env.termProgram) "zed" ∨ strIncludes env.term "alacritty" then
    .iterm
  else if env.termProgram = "" ∧ strIncludes env.term "kitty" then .kitty
  else if env.termProgram = "" ∧ strIncludes env.term "ghostty" then .ghostty
  else if env.tmux.length > 0 then .tmux
  else if env.sshConnection.length > 0 then .ssh
  else .unknown

/-! ## input/enable.ts — the capability controller (initializeInput) -/

/-- The string value of an InputFeature enum member (features.ts). -/
def featureName : InputFeature → String
  | .mouseTracking => "mouseTracking"
  | .kittyKeyboard => "kittyKeyboard"
  | .bracketedPaste => "bracketedPaste"
  | .focusEvents => "focusEvents"
  | .clipboard => "clipboard"

/-- The string value of a TerminalType enum member (features.ts). -/
def terminalTypeName : TerminalType → String
  | .kitty => "kitty"
  | .ghostty => "ghostty"
  | .iterm => "iterm"
  | .tmux => "tmux"
  | .ssh => "ssh"
  | .unknown => "unknown"

/-- The fields of DetectedCapabilities that the controller reads. -/
structure Capabilities where
  terminalType : TerminalType
  features : InputFeature → SupportLevel

/-- isFeatureSupported from detection.ts (the default minLevel Partial is
applied at the call site, as in initializeInput's `|| SupportLevel.Partial`). -/
def isFeatureSupported (capabilities : Capabilities) (feature : InputFeature)
    (minLevel : SupportLevel) : Bool :=
  if minLevel = .none then true
  else if minLevel = .part then
    capabilities.features feature = .part ∨ capabilities.features feature = .full
  else capabilities.features feature = .full

/-- The per-feature entry of `config.features`: `enabled`, `required` and
`options.minLevel` (absent booleans are falsy, absent minLevel falls back
to Partial). -/
structure FeatureConfig where
  enabled : Bool
  required : Bool
  minLevel : Option SupportLevel
deriving DecidableEq, Repr

/-- The error string pushed by initializeInput for an unsupported required
feature. -/
def requiredFeatureError (feature : InputFeature) (t : TerminalType) : String :=
  "Required feature '" ++ featureName feature ++ "' is not supported by terminal '"
    ++ terminalTypeName t ++ "'"

/-- The `errors` array accumulated by initializeInput's feature loop.  The
enable step itself cannot throw for the five typed features
(enableFeature's default branch is unreachable), so the only pushes are
the required-and-unsupported ones. -/
def initErrors (capabilities : Capabilities)
    (features : List (InputFeature × FeatureConfig)) : List String :=
  features.foldl
    (fun errs fc =>
      if fc.2.enabled = false then errs
      else if isFeatureSupported capabilities fc.1 (fc.2.minLevel.getD .part) then errs
      else if fc.2.required then
        errs ++ [requiredFeatureError fc.1 capabilities.terminalType]
      else errs)
    []

/-- initializeInput from enable.ts, restricted to its error behaviour: it
throws `Input initialization failed:` with the joined error list when any
required feature was unsupported, and completes otherwise. -/
def initializeInput (capabilities : Capabilities)
    (features : List (InputFeature × FeatureConfig)) : Except String Unit :=
  if (initErrors capabilities features).length > 0 then
    .error ("Input initialization failed:\n" ++ joinSep "\n" (initErrors capabilities features))
  else .ok ()

/-- Invariant for C6: every stored CSI parameter is at most 167772149
(the largest value reachable through the accumulation guard: one more
digit on top of 0xFFFFFE). -/
def paramsLE (d : DecoderState) : Prop := ∀ p ∈ d.params, p ≤ 167772149

/-- Invariant for C6's amended length bound: at most MAX_CSI_PARAMS stored
parameters, an empty list while in the plain csi state, and never resting
in the csi-intermediate state (reachable only by an intermediate byte
0x20-0x2F). -/
def csiQ (d : DecoderState) : Prop :=
  d.params.length ≤ MAX_CSI_PARAMS ∧
    (d.state = ParserState.csi → d.params = []) ∧
    d.state ≠ ParserState.csiIntermediate

/-! # Theorems -/

/-! ### C4 helper lemmas -/

theorem nat_and_31 (x : Nat) : x &&& 31 = x % 32 := by
  have h := Nat.and_pow_two_sub_one_eq_mod x 5
  norm_num at h
  exact h

theorem nat_and_63 (x : Nat) : x &&& 63 = x % 64 := by
  have h := Nat.and_pow_two_sub_one_eq_mod x 6
  norm_num at h
  exact h

theorem replicate5 : ∀ x, x < 32 → x * 8 ||| x / 4 = 8 * x + x / 4 := by decide

theorem replicate6 : ∀ x, x < 64 → x * 4 ||| x / 16 = 4 * x + x / 16 := by decide

/-- Channel-wise decomposition of the 5-6-5 round trip for in-range channels. -/
theorem unpack_pack_rgb (r g b : Nat) (hr : r < 256) (hg : g < 256) (hb : b < 256) :
    unpackRgbColor (packRgbColor r g b) =
      (8 * (r / 8) + r / 8 / 4, 4 * (g / 4) + g / 4 / 16, 8 * (b / 8) + b / 8 / 4) := by
  unfold packRgbColor unpackRgbColor
  simp only [Nat.shiftRight_eq_div_pow, Nat.shiftLeft_eq]
  norm_num
  rw [nat_and_31 (r / 8), nat_and_63 (g / 4), nat_and_31 (b / 8)]
  have hr8 : r / 8 < 32 := by omega
  have hg4 : g / 4 < 64 := by omega
  have hb8 : b / 8 < 32 := by omega
  rw [Nat.mod_eq_of_lt hr8, Nat.mod_eq_of_lt hg4, Nat.mod_eq_of_lt hb8]
  have hsub : 257 + r / 8 * 2048 + g / 4 * 32 + b / 8 - 257
      = r / 8 * 2048 + g / 4 * 32 + b / 8 := by omega
  rw [hsub]
  have hdiv11 : (r / 8 * 2048 + g / 4 * 32 + b / 8) / 2048 = r / 8 := by omega
  have hdiv5 : (r / 8 * 2048 + g / 4 * 32 + b / 8) / 32 % 64 = g / 4 := by omega
  have hmod5 : (r / 8 * 2048 + g / 4 * 32 + b / 8) % 32 = b / 8 := by omega
  rw [nat_and_31, nat_and_63, nat_and_31, hdiv11, hdiv5, hmod5,
    Nat.mod_eq_of_lt hr8]
  exact ⟨replicate5 _ hr8, replicate6 _ hg4, replicate5 _ hb8⟩

/-! ### C4 theorems -/

/-- C4 counterexample: the truecolor string `#070000` (red channel 7) encodes
and decodes to exactly `#000000` — the red channel moves by 7, violating the
claimed ±4 bound — and the palette index 0 does not round-trip at all: its
encoding collapses to the default color (JavaScript truthiness in
`encodeColor`). -/
theorem c4_pm4_palette0_counterexample :
    parseHexColor "#070000" = some 0x070000 ∧
    (0x070000 >>> 16) &&& 0xff = 7 ∧
    decodeColor (encodeColor (some (Color.hex "#070000"))) = some (Color.hex "#000000") ∧
    parseHexColor "#000000" = some 0 ∧
    encodeColor (some (Color.palette 0)) = 0 ∧
    decodeColor (encodeColor (some (Color.palette 0))) = none := by
  refine ⟨by decide, by decide, by decide, by decide, by decide, by decide⟩

/-- C4 amended: truecolor channels round-trip within ±7 for red/blue and ±3
for green (5-6-5 quantisation with bit replication); palette indices 1..255
and the default color round-trip bit-exactly, while palette index 0 encodes
to the default; `#ffffff` and `#000000` round-trip exactly. -/
theorem c4_color_roundtrip_amended :
    (∀ r g b : Nat, r < 256 → g < 256 → b < 256 →
      ((unpackRgbColor (packRgbColor r g b)).1 ≤ r + 7 ∧
        r ≤ (unpackRgbColor (packRgbColor r g b)).1 + 7) ∧
      ((unpackRgbColor (packRgbColor r g b)).2.1 ≤ g + 3 ∧
        g ≤ (unpackRgbColor (packRgbColor r g b)).2.1 + 3) ∧
      ((unpackRgbColor (packRgbColor r g b)).2.2 ≤ b + 7 ∧
        b ≤ (unpackRgbColor (packRgbColor r g b)).2.2 + 7)) ∧
    (∀ p : Nat, 1 ≤ p → p ≤ 255 →
      decodeColor (encodeColor (some (Color.palette p))) = some (Color.palette p)) ∧
    decodeColor (encodeColor none) = none ∧
    encodeColor (some (Color.palette 0)) = 0 ∧
    decodeColor (encodeColor (some (Color.hex "#ffffff"))) = some (Color.hex "#ffffff") ∧
    decodeColor (encodeColor (some (Color.hex "#000000"))) = some (Color.hex "#000000") := by
  refine ⟨?_, ?_, by decide, by decide, by decide, by decide⟩
  · intro r g b hr hg hb
    rw [unpack_pack_rgb r g b hr hg hb]
    refine ⟨⟨?_, ?_⟩, ⟨?_, ?_⟩, ⟨?_, ?_⟩⟩ <;> simp only <;> omega
  · intro p h1 h255
    have hp : p &&& 0xff = p := by
      have h := Nat.and_pow_two_sub_one_eq_mod p 8
      norm_num at h
      rw [h]
      exact Nat.mod_eq_of_lt (by omega)
    have htr : (Color.palette p).truthy = true := by
      simp [Color.truthy]
      omega
    simp only [encodeColor, htr]
    norm_num [hp]
    simp only [decodeColor]
    have hne : ¬ (1 + p = 0) := by omega
    have hle : 1 + p ≤ 1 + 255 := by omega
    simp [hne, hle]

/-- Witness for `c4_color_roundtrip_amended` at concrete inputs. -/
theorem c4_color_roundtrip_amended_witness :
    (unpackRgbColor (packRgbColor 7 0 0)).1 ≤ 7 + 7 ∧
    decodeColor (encodeColor (some (Color.palette 5))) = some (Color.palette 5) := by
  refine ⟨((c4_color_roundtrip_amended.1 7 0 0 (by decide) (by decide) (by decide)).1).1, ?_⟩
  exact c4_color_roundtrip_amended.2.1 5 (by decide) (by decide)


/-! ### C7 theorems -/

/-- C7 counterexample: a resize call whose dimensions equal the current
dimensions is an early-return no-op, so the buffers are not refilled with the
empty cell — the previously written cell survives, contradicting the claim
for this case. -/
theorem c7_resize_same_dims_counterexample :
    ((((DiffEngine.make 1 1).setCellWithAttrs 0 0 "Z" (some {})).resize 1 1).curr.getD 0 emptyCell
        ≠ emptyCell) ∧
    (((DiffEngine.make 1 1).setCellWithAttrs 0 0 "Z" (some {})).resize 1 1).curr
        ≠ List.replicate 1 emptyCell := by
  refine ⟨by decide, by decide⟩

/-- C7 amended: a resize whose dimensions differ from the current ones
reallocates both buffers holding only the empty cell, marks every row dirty
and discards the previous contents; a resize with the current dimensions is
an early-return no-op that preserves the engine unchanged. -/
theorem c7_resize_amended (e : DiffEngine) (rows cols : Nat) :
    (¬ (rows = e.rows ∧ cols = e.cols) →
      (e.resize rows cols).prev = List.replicate (rows * cols) emptyCell ∧
      (e.resize rows cols).curr = List.replicate (rows * cols) emptyCell ∧
      (e.resize rows cols).dirty = List.replicate rows true ∧
      (e.resize rows cols).rows = rows ∧ (e.resize rows cols).cols = cols) ∧
    ((rows = e.rows ∧ cols = e.cols) → e.resize rows cols = e) := by
  constructor
  · intro h
    simp only [DiffEngine.resize, if_neg h]
    exact ⟨trivial, trivial, trivial, trivial, trivial⟩
  · intro h
    simp only [DiffEngine.resize, if_pos h]

/-- Witness for `c7_resize_amended` at concrete inputs. -/
theorem c7_resize_amended_witness :
    ((DiffEngine.make 2 2).resize 1 3).curr = List.replicate 3 emptyCell ∧
    (DiffEngine.make 2 2).resize 2 2 = DiffEngine.make 2 2 := by
  refine ⟨((c7_resize_amended (DiffEngine.make 2 2) 1 3).1 (by decide)).2.1, ?_⟩
  exact (c7_resize_amended (DiffEngine.make 2 2) 2 2).2 ⟨rfl, rfl⟩

/-! ### C2 theorems -/

theorem joinSep_cons_esc49 (l : List String) :
    ∃ r, ESC ++ joinSep ";" ("49" :: l) ++ "m" = "\x1b[49" ++ r := by
  match l with
  | [] => exact ⟨"m", rfl⟩
  | y :: ys =>
    refine ⟨";" ++ (joinSep ";" (y :: ys) ++ "m"), ?_⟩
    show ESC ++ ("49" ++ ";" ++ joinSep ";" (y :: ys)) ++ "m"
        = "\x1b[49" ++ (";" ++ (joinSep ";" (y :: ys) ++ "m"))
    apply String.ext
    simp [ESC, String.data_append]

/-- C2: on the 1×2 grid, setting `X` on red background and `Y` unstyled makes
`compute_diff()` emit the `49` background-reset code inside an `ESC [ … m`
sequence immediately before `Y`; and in general, when the attribute byte is
unchanged, the run's new background is default, and either the tracked
background is non-default or a background was set earlier in the frame, the
emitted color delta starts with the code `49`. -/
theorem c2_bg_reset_before_default_run :
    (DiffEngine.computeDiff
        (((DiffEngine.make 1 2).setCellWithAttrs 0 0 "X"
            (some { bg := some (Color.hex "#ff0000") })).setCellWithAttrs 0 1 "Y"
          (some {}))).1
      = "\x1b[1;1H\x1b[48;2;255;0;0mX" ++ "\x1b[49m" ++ "Y" ∧
    (∀ (st : AnsiState) (hasSetBg : Bool) (newAttr : Nat) (newFg : Option Color),
      st.attr = newAttr →
      (st.bg ≠ none ∨ (hasSetBg = true ∧ st.bg = none)) →
      ∃ rest, (generateStateChange st hasSetBg newAttr newFg none).1 = "\x1b[49" ++ rest) := by
  constructor
  · decide
  · intro st hasSetBg newAttr newFg hattr hbg
    obtain ⟨a, f, b⟩ := st
    simp only at hattr
    subst hattr
    simp only [generateStateChange]
    rcases hbg with h | ⟨hs, hn⟩
    · obtain ⟨c, rfl⟩ := Option.ne_none_iff_exists'.mp h
      simp only [bne_self_eq_false, decide_True, decide_not, ne_eq,
        Option.some_ne_none, not_false_eq_true, decide_eq_true_eq, decide_False,
        Bool.or_true, Bool.true_or, Bool.false_or, Bool.or_false,
        Bool.true_and, Bool.and_true, Bool.false_and, Bool.and_false,
        Bool.not_true, Bool.not_false, if_true, if_false]
      rw [if_neg (show ¬ (false = true) by decide), if_neg (show ¬ (false = true) by decide)]
      simp only [getCachedColorSequence, truthyOpt, Bool.not_false, Bool.and_true,
        colorParts, List.append_nil, List.nil_append, if_true]
      simp only [List.cons_append, List.nil_append, List.length_cons]
      rw [if_pos (Nat.succ_pos _)]
      exact joinSep_cons_esc49 _
    · simp only at hn
      subst hn
      subst hs
      have h1 : decide ((none : Option Color) ≠ none) = false := by decide
      have h2 : decide ((none : Option Color) = none) = true := by decide
      simp only [h1, h2, bne_self_eq_false, decide_True, decide_not, ne_eq,
        Bool.or_true, Bool.true_or, Bool.false_or, Bool.or_false,
        Bool.true_and, Bool.and_true, Bool.false_and, Bool.and_false,
        Bool.not_true, Bool.not_false, if_true, if_false]
      rw [if_neg (show ¬ (false = true) by decide), if_neg (show ¬ (false = true) by decide)]
      simp only [getCachedColorSequence, truthyOpt, Bool.not_false, Bool.and_true,
        colorParts, List.append_nil, List.nil_append, if_true]
      simp only [List.cons_append, List.nil_append, List.length_cons]
      rw [if_pos (Nat.succ_pos _)]
      exact joinSep_cons_esc49 _

/-- Witness for `c2_bg_reset_before_default_run` at a concrete state change. -/
theorem c2_bg_reset_before_default_run_witness :
    ∃ rest, (generateStateChange ⟨0, none, some (Color.hex "#ff0000")⟩ true 0 none none).1
      = "\x1b[49" ++ rest :=
  c2_bg_reset_before_default_run.2 ⟨0, none, some (Color.hex "#ff0000")⟩ true 0 none rfl
    (Or.inl (by decide))

/-! ### C3 theorems -/

/-- C3 counterexample: in the red-background frame of scenario C2 a
non-default background is set during the frame (the engine records
has-set-background), yet because the last emitted run returns the tracked
state to the default triple, the emitted bytes do not end with `ESC [ 0 m`. -/
theorem c3_trailing_reset_counterexample :
    ((DiffEngine.computeDiff
        (((DiffEngine.make 1 2).setCellWithAttrs 0 0 "X"
            (some { bg := some (Color.hex "#ff0000") })).setCellWithAttrs 0 1 "Y"
          (some {}))).2.hasSetBackground = true) ∧
    (strEndsWith (DiffEngine.computeDiff
        (((DiffEngine.make 1 2).setCellWithAttrs 0 0 "X"
            (some { bg := some (Color.hex "#ff0000") })).setCellWithAttrs 0 1 "Y"
          (some {}))).1 "\x1b[0m" = false) := by
  refine ⟨by decide, by decide⟩

/-- C3 amended: `ESC [ 0 m` is appended exactly when the frame emitted output
and the tracked ANSI state at the end of the frame is non-default — attribute
byte non-zero or a truthy foreground/background (palette index 0 counts as
unset) — regardless of whether non-default state was set earlier in the
frame. -/
theorem c3_trailing_reset_amended (e : DiffEngine) :
    ((DiffEngine.computeDiffFrame e).output ≠ "" ∧
        ((DiffEngine.computeDiffFrame e).ansi.attr ≠ 0 ∨
          truthyOpt (DiffEngine.computeDiffFrame e).ansi.fg = true ∨
          truthyOpt (DiffEngine.computeDiffFrame e).ansi.bg = true) →
      (DiffEngine.computeDiff e).1 = (DiffEngine.computeDiffFrame e).output ++ "\x1b[0m") ∧
    (¬ ((DiffEngine.computeDiffFrame e).output ≠ "" ∧
        ((DiffEngine.computeDiffFrame e).ansi.attr ≠ 0 ∨
          truthyOpt (DiffEngine.computeDiffFrame e).ansi.fg = true ∨
          truthyOpt (DiffEngine.computeDiffFrame e).ansi.bg = true)) →
      (DiffEngine.computeDiff e).1 = (DiffEngine.computeDiffFrame e).output) ∧
    (DiffEngine.computeDiff e).2.ansiState = (DiffEngine.computeDiffFrame e).ansi ∧
    (DiffEngine.computeDiff e).2.hasSetBackground = (DiffEngine.computeDiffFrame e).hasSetBg := by
  refine ⟨?_, ?_, rfl, rfl⟩
  · intro h
    simp only [DiffEngine.computeDiff]
    rw [if_pos h]
    exact rfl
  · intro h
    simp only [DiffEngine.computeDiff]
    rw [if_neg h]

/-- Witness for `c3_trailing_reset_amended`: on a frame ending in a red
foreground the reset is appended; on the C2 frame ending in the default
triple it is not. -/
theorem c3_trailing_reset_amended_witness :
    (DiffEngine.computeDiff
        ((DiffEngine.make 1 1).setCellWithAttrs 0 0 "X"
          (some { fg := some (Color.hex "#ff0000") }))).1
      = (DiffEngine.computeDiffFrame
          ((DiffEngine.make 1 1).setCellWithAttrs 0 0 "X"
            (some { fg := some (Color.hex "#ff0000") }))).output ++ "\x1b[0m" ∧
    (DiffEngine.computeDiff
        (((DiffEngine.make 1 2).setCellWithAttrs 0 0 "X"
            (some { bg := some (Color.hex "#ff0000") })).setCellWithAttrs 0 1 "Y"
          (some {}))).1
      = (DiffEngine.computeDiffFrame
          (((DiffEngine.make 1 2).setCellWithAttrs 0 0 "X"
              (some { bg := some (Color.hex "#ff0000") })).setCellWithAttrs 0 1 "Y"
            (some {}))).output := by
  refine ⟨(c3_trailing_reset_amended _).1 (by decide), (c3_trailing_reset_amended _).2.1 (by decide)⟩

/-! ### C10 theorems -/

/-- C10 counterexample: a cell whose packed background is palette index 0
(encoded word `1`) is not treated exactly as an unstyled cell: the
background-reset decision compares colors with `undefined`, so the palette-0
background splits its run and then forces an `ESC [ 49 m` before the
following default-background run, which an unstyled first cell does not
produce. -/
theorem c10_palette0_counterexample :
    unpackBgColor (packCellPart "x" 0, 1) = some (Color.palette 0) ∧
    (DiffEngine.computeDiff
        (((DiffEngine.make 1 2).setCell 0 0 (packCellPart "x" 0, 1)).setCellWithAttrs 0 1 "y"
          (some {}))).1
      = "\x1b[1;1Hx" ++ "\x1b[49m" ++ "y" ∧
    (DiffEngine.computeDiff
        (((DiffEngine.make 1 2).setCellWithAttrs 0 0 "x" (some {})).setCellWithAttrs 0 1 "y"
          (some {}))).1
      = "\x1b[1;1Hxy" := by
  refine ⟨by decide, by decide, by decide⟩

/-- C10 amended: palette index 0 is falsy, so the color-only delta and the
full sequence builder treat it exactly like an absent color and never emit a
`38;5;0` or `48;5;0` code; but the background-reset decision and the
has-set-background update compare with `undefined`, so a palette-0 background
is treated as a set background there (it records has-set-background, and a
following default-background run receives a `49` reset). -/
theorem c10_palette0_amended :
    (∀ (bg : Option Color) (reset : Bool),
      getCachedColorSequence (some (Color.palette 0)) bg reset
        = getCachedColorSequence none bg reset) ∧
    (∀ (fg : Option Color) (reset : Bool),
      getCachedColorSequence fg (some (Color.palette 0)) reset
        = getCachedColorSequence fg none reset) ∧
    (∀ attrs : Attributes,
      buildAnsiSequence { attrs with fg := some (Color.palette 0) }
        = buildAnsiSequence { attrs with fg := none } ∧
      buildAnsiSequence { attrs with bg := some (Color.palette 0) }
        = buildAnsiSequence { attrs with bg := none }) ∧
    (∀ (st : AnsiState) (hsb : Bool) (a : Nat) (f : Option Color),
      st.bg ≠ some (Color.palette 0) →
      (generateStateChange st hsb a f (some (Color.palette 0))).2.2 = true) := by
  refine ⟨fun bg reset => rfl, fun fg reset => rfl, fun attrs => ⟨rfl, rfl⟩, ?_⟩
  intro st hsb a f hbg
  have hb : decide (st.bg ≠ some (Color.palette 0)) = true := by simp [hbg]
  simp only [generateStateChange, hb, Bool.or_true, Bool.true_or, Bool.not_true]
  rw [if_neg (show ¬ (false = true) by decide)]
  show (if (some (Color.palette 0) : Option Color) ≠ none then true else hsb) = true
  rw [if_pos (Option.some_ne_none _)]

/-- Witness for `c10_palette0_amended` at a concrete state change. -/
theorem c10_palette0_amended_witness :
    (generateStateChange ⟨0, none, none⟩ false 0 none (some (Color.palette 0))).2.2 = true :=
  c10_palette0_amended.2.2.2 ⟨0, none, none⟩ false 0 none (by decide)

/-! ### C1 helper lemmas -/

theorem getD_set_ne' {α : Type} (l : List α) (i j : Nat) (h : i ≠ j) (a : α) (d : α) :
    (l.set i a).getD j d = l.getD j d := by
  simp [List.getD_eq_getElem?_getD, List.getElem?_set_ne h]

theorem getD_set_self_lt {α : Type} (l : List α) (i : Nat) (h : i < l.length) (a d : α) :
    (l.set i a).getD i d = a := by
  simp [List.getD_eq_getElem?_getD, List.getElem?_set_self h]

theorem getD_default' {α : Type} (l : List α) (i : Nat) (h : l.length ≤ i) (d : α) :
    l.getD i d = d := by
  simp [List.getD_eq_getElem?_getD, List.getElem?_eq_none h]

theorem getD_set_self_or_default {α : Type} (l : List α) (i : Nat) (d : α) :
    (l.set i d).getD i d = d := by
  by_cases h : i < l.length
  · exact getD_set_self_lt l i h d d
  · push_neg at h
    rw [List.set_eq_of_length_le h]
    exact getD_default' l i h d

theorem cellEquals_iff (a b : Cell) : cellEquals a b = true ↔ a = b := by
  cases a
  cases b
  simp [cellEquals, Prod.ext_iff]

theorem copyFold_length (curr : List Cell) (offset : Nat) :
    ∀ (l : List Nat) (p : List Cell),
      (l.foldl (fun q i => q.set (offset + i) (curr.getD (offset + i) emptyCell)) p).length
        = p.length := by
  intro l
  induction l with
  | nil => intro p; rfl
  | cons x xs ih =>
    intro p
    rw [List.foldl_cons, ih]
    exact List.length_set ..

theorem copyFold_getD_untouched (curr : List Cell) (offset : Nat) :
    ∀ (l : List Nat) (p : List Cell) (idx : Nat),
      (∀ j, j ∈ l → idx ≠ offset + j) →
      (l.foldl (fun q i => q.set (offset + i) (curr.getD (offset + i) emptyCell)) p).getD idx
          emptyCell
        = p.getD idx emptyCell := by
  intro l
  induction l with
  | nil => intro p idx _; rfl
  | cons x xs ih =>
    intro p idx h
    rw [List.foldl_cons, ih _ _ (fun j hj => h j (List.mem_cons_of_mem _ hj))]
    exact getD_set_ne' _ _ _ (fun he => h x (List.mem_cons_self _ _) he.symm) _ _

theorem copyFold_getD_written (curr : List Cell) (offset : Nat) :
    ∀ (n s : Nat) (p : List Cell) (j : Nat),
      p.length = curr.length → s ≤ j → j < s + n →
      ((List.range' s n).foldl
          (fun q i => q.set (offset + i) (curr.getD (offset + i) emptyCell)) p).getD
          (offset + j) emptyCell
        = curr.getD (offset + j) emptyCell := by
  intro n
  induction n with
  | zero => intro s p j _ h1 h2; omega
  | succ n ih =>
    intro s p j hlen h1 h2
    rw [List.range'_succ, List.foldl_cons]
    by_cases hj : j = s
    · subst hj
      rw [copyFold_getD_untouched curr offset _ _ _ ?memh]
      case memh =>
        intro k hk heq
        obtain ⟨i, hi, rfl⟩ := List.mem_range'.mp hk
        omega
      by_cases hlt : offset + j < p.length
      · exact getD_set_self_lt _ _ hlt _ _
      · push_neg at hlt
        rw [List.set_eq_of_length_le hlt, getD_default' _ _ hlt, getD_default' _ _ (by omega)]
    · have hlen' : (p.set (offset + s) (curr.getD (offset + s) emptyCell)).length = curr.length := by
        rw [List.length_set]; exact hlen
      exact ih (s + 1) _ j hlen' (by omega) (by omega)

theorem findRunEndAux_ge (curr : List Cell) (off a : Nat) (f b : Option Color) :
    ∀ (fuel runEnd : Nat), runEnd ≤ DiffEngine.findRunEndAux curr off a f b runEnd fuel := by
  intro fuel
  induction fuel with
  | zero => intro r; exact Nat.le_refl r
  | succ n ih =>
    intro r
    simp only [DiffEngine.findRunEndAux]
    split
    · exact Nat.le_refl r
    · exact Nat.le_trans (Nat.le_succ r) (ih (r + 1))

theorem findRunEndAux_le (curr : List Cell) (off a : Nat) (f b : Option Color) :
    ∀ (fuel runEnd : Nat), DiffEngine.findRunEndAux curr off a f b runEnd fuel ≤ runEnd + fuel := by
  intro fuel
  induction fuel with
  | zero => intro r; exact Nat.le_refl r
  | succ n ih =>
    intro r
    simp only [DiffEngine.findRunEndAux]
    split
    · omega
    · exact Nat.le_trans (ih (r + 1)) (by omega)

theorem findRunEnd_le_cols (cols : Nat) (curr : List Cell) (row col a : Nat)
    (f b : Option Color) (h : col ≤ cols) :
    DiffEngine.findRunEnd cols curr row col a f b ≤ cols := by
  have := findRunEndAux_le curr (row * cols) a f b (cols - col) col
  unfold DiffEngine.findRunEnd
  omega

theorem findRunEnd_gt (cols : Nat) (curr : List Cell) (row col : Nat) (h : col < cols) :
    col < DiffEngine.findRunEnd cols curr row col
      (unpackAttr (curr.getD (row * cols + col) emptyCell))
      (unpackFgColor (curr.getD (row * cols + col) emptyCell))
      (unpackBgColor (curr.getD (row * cols + col) emptyCell)) := by
  unfold DiffEngine.findRunEnd
  obtain ⟨k, hk⟩ : ∃ k, cols - col = k + 1 := ⟨cols - col - 1, by omega⟩
  rw [hk]
  simp only [DiffEngine.findRunEndAux]
  rw [if_neg (by simp)]
  exact Nat.lt_of_lt_of_le (Nat.lt_succ_self col) (findRunEndAux_ge curr (row * cols) _ _ _ k (col + 1))

theorem runHasChanges_false_eq (cols : Nat) (prev curr : List Cell) (row s e : Nat)
    (h : DiffEngine.runHasChanges cols prev curr row s e = false) :
    ∀ j, s ≤ j → j < e →
      prev.getD (row * cols + j) emptyCell = curr.getD (row * cols + j) emptyCell := by
  intro j h1 h2
  unfold DiffEngine.runHasChanges at h
  rw [List.any_eq_false] at h
  have hmem : j ∈ List.range' s (e - s) := List.mem_range'.mpr ⟨j - s, by omega, by omega⟩
  have hj := h j hmem
  simp only [Bool.not_eq_true', Bool.not_eq_false] at hj
  exact (cellEquals_iff _ _).mp hj

theorem outputRun_prev (cols : Nat) (curr : List Cell) (row s e a : Nat) (f b : Option Color)
    (st : AnsiState) (hsb : Bool) (p : List Cell) :
    (DiffEngine.outputRun cols curr row s e a f b st hsb p).2.2.2
      = (List.range' s (e - s)).foldl
          (fun q i => q.set (row * cols + i) (curr.getD (row * cols + i) emptyCell)) p := rfl

theorem colStep_fst (cols : Nat) (curr : List Cell) (row col : Nat)
    (fs : DiffEngine.FrameState) :
    (DiffEngine.colStep cols curr row col fs).1
      = DiffEngine.findRunEnd cols curr row col
          (unpackAttr (curr.getD (row * cols + col) emptyCell))
          (unpackFgColor (curr.getD (row * cols + col) emptyCell))
          (unpackBgColor (curr.getD (row * cols + col) emptyCell)) := rfl

theorem colStep_runEnd_gt (cols : Nat) (curr : List Cell) (row col : Nat)
    (fs : DiffEngine.FrameState) (h : col < cols) :
    col < (DiffEngine.colStep cols curr row col fs).1 := by
  rw [colStep_fst]
  exact findRunEnd_gt cols curr row col h

theorem colStep_runEnd_le (cols : Nat) (curr : List Cell) (row col : Nat)
    (fs : DiffEngine.FrameState) (h : col ≤ cols) :
    (DiffEngine.colStep cols curr row col fs).1 ≤ cols := by
  rw [colStep_fst]
  exact findRunEnd_le_cols cols curr row col _ _ _ h

theorem colStep_dirty (cols : Nat) (curr : List Cell) (row col : Nat)
    (fs : DiffEngine.FrameState) :
    (DiffEngine.colStep cols curr row col fs).2.dirty = fs.dirty := by
  simp only [DiffEngine.colStep]
  split
  · split <;> rfl
  · rfl

theorem colStep_prev_length (cols : Nat) (curr : List Cell) (row col : Nat)
    (fs : DiffEngine.FrameState) (hlen : fs.prev.length = curr.length) :
    (DiffEngine.colStep cols curr row col fs).2.prev.length = curr.length := by
  simp only [DiffEngine.colStep]
  split
  · split
    · simp only [outputRun_prev, copyFold_length]
      exact hlen
    · simp only [outputRun_prev, copyFold_length]
      exact hlen
  · exact hlen

theorem colStep_prev_getD_written (cols : Nat) (curr : List Cell) (row col : Nat)
    (fs : DiffEngine.FrameState) (hlen : fs.prev.length = curr.length)
    (j : Nat) (h1 : col ≤ j) (h2 : j < (DiffEngine.colStep cols curr row col fs).1) :
    (DiffEngine.colStep cols curr row col fs).2.prev.getD (row * cols + j) emptyCell
      = curr.getD (row * cols + j) emptyCell := by
  rw [colStep_fst] at h2
  simp only [DiffEngine.colStep]
  split
  case isTrue h =>
    split
    · simp only [outputRun_prev]
      exact copyFold_getD_written curr (row * cols) _ col fs.prev j hlen h1 (by omega)
    · simp only [outputRun_prev]
      exact copyFold_getD_written curr (row * cols) _ col fs.prev j hlen h1 (by omega)
  case isFalse h =>
    have hfalse : DiffEngine.runHasChanges cols fs.prev curr row col
        (DiffEngine.findRunEnd cols curr row col
          (unpackAttr (curr.getD (row * cols + col) emptyCell))
          (unpackFgColor (curr.getD (row * cols + col) emptyCell))
          (unpackBgColor (curr.getD (row * cols + col) emptyCell))) = false := by
      revert h
      cases DiffEngine.runHasChanges cols fs.prev curr row col
        (DiffEngine.findRunEnd cols curr row col
          (unpackAttr (curr.getD (row * cols + col) emptyCell))
          (unpackFgColor (curr.getD (row * cols + col) emptyCell))
          (unpackBgColor (curr.getD (row * cols + col) emptyCell))) <;> simp
    exact runHasChanges_false_eq cols fs.prev curr row col _ hfalse j h1 h2

theorem colStep_prev_getD_untouched (cols : Nat) (curr : List Cell) (row col : Nat)
    (fs : DiffEngine.FrameState) (idx : Nat)
    (h : idx < row * cols + col ∨ row * cols + (DiffEngine.colStep cols curr row col fs).1 ≤ idx) :
    (DiffEngine.colStep cols curr row col fs).2.prev.getD idx emptyCell
      = fs.prev.getD idx emptyCell := by
  rw [colStep_fst] at h
  simp only [DiffEngine.colStep]
  split
  case isTrue hch =>
    have huntouched : ∀ k, k ∈ List.range' col
        (DiffEngine.findRunEnd cols curr row col
          (unpackAttr (curr.getD (row * cols + col) emptyCell))
          (unpackFgColor (curr.getD (row * cols + col) emptyCell))
          (unpackBgColor (curr.getD (row * cols + col) emptyCell)) - col) →
        idx ≠ row * cols + k := by
      intro k hk
      obtain ⟨i, hi, rfl⟩ := List.mem_range'.mp hk
      omega
    split
    · simp only [outputRun_prev]
      exact copyFold_getD_untouched curr (row * cols) _ fs.prev idx huntouched
    · simp only [outputRun_prev]
      exact copyFold_getD_untouched curr (row * cols) _ fs.prev idx huntouched
  case isFalse hch => rfl

theorem colLoop_spec (cols : Nat) (curr : List Cell) (row : Nat) :
    ∀ (fuel col : Nat) (fs : DiffEngine.FrameState),
      cols ≤ fuel + col →
      fs.prev.length = curr.length →
      (DiffEngine.colLoop cols curr row fuel col fs).prev.length = curr.length ∧
      (DiffEngine.colLoop cols curr row fuel col fs).dirty = fs.dirty ∧
      (∀ j, col ≤ j → j < cols →
        (DiffEngine.colLoop cols curr row fuel col fs).prev.getD (row * cols + j) emptyCell
          = curr.getD (row * cols + j) emptyCell) ∧
      (∀ idx, idx < row * cols + col ∨ row * cols + cols ≤ idx →
        (DiffEngine.colLoop cols curr row fuel col fs).prev.getD idx emptyCell
          = fs.prev.getD idx emptyCell) := by
  intro fuel
  induction fuel with
  | zero =>
    intro col fs hfuel hlen
    exact ⟨hlen, rfl, fun j h1 h2 => by omega, fun idx _ => rfl⟩
  | succ n ih =>
    intro col fs hfuel hlen
    by_cases hcol : col < cols
    · have hstep : DiffEngine.colLoop cols curr row (n + 1) col fs
          = DiffEngine.colLoop cols curr row n (DiffEngine.colStep cols curr row col fs).1
              (DiffEngine.colStep cols curr row col fs).2 := by
        simp only [DiffEngine.colLoop, if_pos hcol]
      have hgt := colStep_runEnd_gt cols curr row col fs hcol
      have hle := colStep_runEnd_le cols curr row col fs (Nat.le_of_lt hcol)
      have hlen' := colStep_prev_length cols curr row col fs hlen
      obtain ⟨ihlen, ihdirty, ihwritten, ihuntouched⟩ :=
        ih (DiffEngine.colStep cols curr row col fs).1 (DiffEngine.colStep cols curr row col fs).2
          (by omega) hlen'
      rw [hstep]
      refine ⟨ihlen, ihdirty.trans (colStep_dirty cols curr row col fs), ?_, ?_⟩
      · intro j h1 h2
        by_cases hj : (DiffEngine.colStep cols curr row col fs).1 ≤ j
        · exact ihwritten j hj h2
        · push_neg at hj
          rw [ihuntouched (row * cols + j) (Or.inl (by omega))]
          exact colStep_prev_getD_written cols curr row col fs hlen j h1 hj
      · intro idx hidx
        rw [ihuntouched idx (by omega)]
        exact colStep_prev_getD_untouched cols curr row col fs idx (by omega)
    · rw [show DiffEngine.colLoop cols curr row (n + 1) col fs = fs from by
        simp only [DiffEngine.colLoop, if_neg hcol]]
      exact ⟨hlen, rfl, fun j h1 h2 => by omega, fun idx _ => rfl⟩

theorem rowcol_lt {cols r c rows : Nat} (hr : r < rows) (hc : c < cols) :
    r * cols + c < rows * cols := by
  have h1 : (r + 1) * cols = r * cols + cols := Nat.succ_mul r cols
  have h2 : (r + 1) * cols ≤ rows * cols := Nat.mul_le_mul_right cols hr
  omega

theorem rowsFold_spec (cols : Nat) (curr : List Cell) :
    ∀ (rows : Nat) (fs : DiffEngine.FrameState),
      fs.prev.length = curr.length →
      ((List.range rows).foldl (DiffEngine.processRow cols curr) fs).prev.length = curr.length ∧
      ((List.range rows).foldl (DiffEngine.processRow cols curr) fs).dirty.length
        = fs.dirty.length ∧
      (∀ r, rows ≤ r →
        ((List.range rows).foldl (DiffEngine.processRow cols curr) fs).dirty.getD r false
          = fs.dirty.getD r false) ∧
      (∀ r, r < rows →
        ((List.range rows).foldl (DiffEngine.processRow cols curr) fs).dirty.getD r false
          = false) ∧
      (∀ idx, rows * cols ≤ idx →
        ((List.range rows).foldl (DiffEngine.processRow cols curr) fs).prev.getD idx emptyCell
          = fs.prev.getD idx emptyCell) ∧
      (∀ r c, r < rows → c < cols →
        (fs.dirty.getD r false = true →
          ((List.range rows).foldl (DiffEngine.processRow cols curr) fs).prev.getD
              (r * cols + c) emptyCell
            = curr.getD (r * cols + c) emptyCell) ∧
        (fs.dirty.getD r false = false →
          ((List.range rows).foldl (DiffEngine.processRow cols curr) fs).prev.getD
              (r * cols + c) emptyCell
            = fs.prev.getD (r * cols + c) emptyCell)) := by
  intro rows
  induction rows with
  | zero =>
    intro fs hlen
    exact ⟨hlen, rfl, fun r _ => rfl, fun r hr => by omega, fun idx _ => rfl,
      fun r c hr hc => by omega⟩
  | succ rows ih =>
    intro fs hlen
    rw [List.range_succ, List.foldl_append, List.foldl_cons, List.foldl_nil]
    obtain ⟨ihlen, ihdlen, ihdhigh, ihdlow, ihphigh, ihpmain⟩ := ih fs hlen
    by_cases hdirty : ((List.range rows).foldl (DiffEngine.processRow cols curr) fs).dirty.getD
        rows false = true
    · have hstep : DiffEngine.processRow cols curr
          ((List.range rows).foldl (DiffEngine.processRow cols curr) fs) rows
          = { DiffEngine.colLoop cols curr rows cols 0
                ((List.range rows).foldl (DiffEngine.processRow cols curr) fs) with
              dirty := (DiffEngine.colLoop cols curr rows cols 0
                ((List.range rows).foldl (DiffEngine.processRow cols curr) fs)).dirty.set
                rows false } := by
        simp only [DiffEngine.processRow, if_pos hdirty]
      obtain ⟨cllen, cldirty, clwritten, cluntouched⟩ :=
        colLoop_spec cols curr rows cols 0
          ((List.range rows).foldl (DiffEngine.processRow cols curr) fs) (by omega) ihlen
      rw [hstep]
      refine ⟨cllen, ?_, ?_, ?_, ?_, ?_⟩
      · simp only [List.length_set, cldirty, ihdlen]
      · intro r hr
        simp only
        rw [getD_set_ne' _ _ _ (by omega) _ _, cldirty]
        exact ihdhigh r (by omega)
      · intro r hr
        simp only
        by_cases hreq : r = rows
        · subst hreq
          exact getD_set_self_or_default _ _ _
        · rw [getD_set_ne' _ _ _ (fun he => hreq he.symm) _ _, cldirty]
          exact ihdlow r (by omega)
      · intro idx hidx
        simp only
        rw [cluntouched idx (Or.inr (by
          have h1 : rows * cols + cols = (rows + 1) * cols := (Nat.succ_mul rows cols).symm
          omega))]
        exact ihphigh idx (by
          have h1 : rows * cols ≤ (rows + 1) * cols := Nat.mul_le_mul_right cols (by omega)
          omega)
      · intro r c hr hc
        by_cases hreq : r = rows
        · subst hreq
          constructor
          · intro _
            exact clwritten c (by omega) hc
          · intro hfalse
            rw [ihdhigh r (by omega)] at hdirty
            rw [hfalse] at hdirty
            exact absurd hdirty (by simp)
        · have hlt : r * cols + c < rows * cols := rowcol_lt (by omega) hc
          constructor
          · intro htrue
            simp only
            rw [cluntouched (r * cols + c) (Or.inl (by omega))]
            exact (ihpmain r c (by omega) hc).1 htrue
          · intro hfalse
            simp only
            rw [cluntouched (r * cols + c) (Or.inl (by omega))]
            exact (ihpmain r c (by omega) hc).2 hfalse
    · have hfalse : ((List.range rows).foldl (DiffEngine.processRow cols curr) fs).dirty.getD
          rows false = false := by
        revert hdirty
        cases ((List.range rows).foldl (DiffEngine.processRow cols curr) fs).dirty.getD
          rows false <;> simp
      have hstep : DiffEngine.processRow cols curr
          ((List.range rows).foldl (DiffEngine.processRow cols curr) fs) rows
          = (List.range rows).foldl (DiffEngine.processRow cols curr) fs := by
        simp only [DiffEngine.processRow, hfalse]
        rfl
      rw [hstep]
      refine ⟨ihlen, ihdlen, fun r hr => ihdhigh r (by omega), ?_, ?_, ?_⟩
      · intro r hr
        by_cases hreq : r = rows
        · subst hreq
          rw [ihdhigh r (by omega)]
          rw [ihdhigh r (by omega)] at hfalse
          exact hfalse
        · exact ihdlow r (by omega)
      · intro idx hidx
        exact ihphigh idx (by
          have h1 : rows * cols ≤ (rows + 1) * cols := Nat.mul_le_mul_right cols (by omega)
          omega)
      · intro r c hr hc
        by_cases hreq : r = rows
        · subst hreq
          constructor
          · intro htrue
            rw [ihdhigh r (by omega)] at hfalse
            rw [htrue] at hfalse
            exact absurd hfalse (by simp)
          · intro _
            exact ihphigh (r * cols + c) (by
              have h1 : r * cols + cols = (r + 1) * cols := (Nat.succ_mul r cols).symm
              omega)
        · exact ihpmain r c (by omega) hc

theorem getD_replicate' {α : Type} (n i : Nat) (a d : α) :
    (List.replicate n a).getD i d = if i < n then a else d := by
  simp only [List.getD_eq_getElem?_getD, List.getElem?_replicate]
  split <;> rfl

theorem getD_map_const {α β : Type} (l : List α) (i : Nat) (b : β) (d : β) (h : i < l.length) :
    (l.map (fun _ => b)).getD i d = b := by
  rw [List.getD_eq_getElem?_getD, List.getElem?_map, List.getElem?_eq_getElem h]
  rfl

theorem rowcol_index_ne {cols r c row col : Nat} (hc : c < cols) (hcol : col < cols)
    (h : r ≠ row) : r * cols + c ≠ row * cols + col := by
  intro he
  have hcols : 0 < cols := by omega
  have h1 : (r * cols + c) / cols = r := by
    rw [Nat.mul_comm r cols, Nat.mul_add_div hcols, Nat.div_eq_of_lt hc]
    omega
  have h2 : (row * cols + col) / cols = row := by
    rw [Nat.mul_comm row cols, Nat.mul_add_div hcols, Nat.div_eq_of_lt hcol]
    omega
  rw [he, h2] at h1
  exact h h1.symm

theorem DiffInv_make (rows cols : Nat) : DiffInv (DiffEngine.make rows cols) := by
  refine ⟨List.length_replicate .., List.length_replicate .., List.length_replicate .., ?_⟩
  intro r c hr hc _
  rfl

theorem DiffInv_markDirty (e : DiffEngine) (row : Nat) (h : DiffInv e) :
    DiffInv (e.markDirty row) := by
  obtain ⟨hp, hc, hd, hclean⟩ := h
  unfold DiffEngine.markDirty
  split
  case isTrue hrow =>
    refine ⟨hp, hc, by simpa using hd, ?_⟩
    intro r c hr hcc hcl
    simp only at hcl hr hcc ⊢
    by_cases hreq : r = row
    · subst hreq
      rw [getD_set_self_lt _ _ (by omega) _ _] at hcl
      exact absurd hcl (by simp)
    · rw [getD_set_ne' _ _ _ (fun he => hreq he.symm) _ _] at hcl
      exact hclean r c hr hcc hcl
  case isFalse hrow => exact ⟨hp, hc, hd, hclean⟩

theorem DiffInv_markAllDirty (e : DiffEngine) (h : DiffInv e) : DiffInv e.markAllDirty := by
  obtain ⟨hp, hc, hd, hclean⟩ := h
  refine ⟨hp, hc, by simpa [DiffEngine.markAllDirty] using hd, ?_⟩
  intro r c hr hcc hcl
  simp only [DiffEngine.markAllDirty] at hcl hr hcc ⊢
  rw [getD_map_const _ _ _ _ (by omega)] at hcl
  exact absurd hcl (by simp)

theorem DiffInv_clear (e : DiffEngine) (h : DiffInv e) : DiffInv e.clear := by
  obtain ⟨hp, hc, hd, hclean⟩ := h
  refine ⟨hp, by simpa [DiffEngine.clear, DiffEngine.markAllDirty] using hc,
    by simpa [DiffEngine.clear, DiffEngine.markAllDirty] using hd, ?_⟩
  intro r c hr hcc hcl
  simp only [DiffEngine.clear, DiffEngine.markAllDirty] at hcl hr hcc ⊢
  rw [getD_map_const _ _ _ _ (by omega)] at hcl
  exact absurd hcl (by simp)

theorem DiffInv_setCell (e : DiffEngine) (row col : Nat) (cell : Cell) (h : DiffInv e) :
    DiffInv (e.setCell row col cell) := by
  obtain ⟨hp, hc, hd, hclean⟩ := h
  simp only [DiffEngine.setCell]
  split
  case isTrue hin =>
    split
    case isTrue heq => exact ⟨hp, hc, hd, hclean⟩
    case isFalse hne =>
      unfold DiffEngine.markDirty
      split
      case isTrue hrow =>
        refine ⟨hp, by simpa using hc, by simpa using hd, ?_⟩
        intro r c hr hcc hcl
        simp only at hcl hr hcc ⊢
        by_cases hreq : r = row
        · subst hreq
          rw [getD_set_self_lt _ _ (by omega) _ _] at hcl
          exact absurd hcl (by simp)
        · rw [getD_set_ne' _ _ _ (fun he => hreq he.symm) _ _] at hcl
          rw [getD_set_ne' _ _ _ (rowcol_index_ne hcc hin.2 hreq).symm _ _]
          exact hclean r c hr hcc hcl
      case isFalse hrow => exact absurd hin.1 hrow
  case isFalse hout => exact ⟨hp, hc, hd, hclean⟩

theorem DiffInv_setCellWithAttrs (e : DiffEngine) (row col : Nat) (char : String)
    (attrs : Option Attributes) (h : DiffInv e) :
    DiffInv (e.setCellWithAttrs row col char attrs) := by
  obtain ⟨hp, hc, hd, hclean⟩ := h
  simp only [DiffEngine.setCellWithAttrs]
  split
  case isTrue hin =>
    split
    case isTrue heq => exact ⟨hp, hc, hd, hclean⟩
    case isFalse hne =>
      unfold DiffEngine.markDirty
      split
      case isTrue hrow =>
        refine ⟨hp, by simpa using hc, by simpa using hd, ?_⟩
        intro r c hr hcc hcl
        simp only at hcl hr hcc ⊢
        by_cases hreq : r = row
        · subst hreq
          rw [getD_set_self_lt _ _ (by omega) _ _] at hcl
          exact absurd hcl (by simp)
        · rw [getD_set_ne' _ _ _ (fun he => hreq he.symm) _ _] at hcl
          rw [getD_set_ne' _ _ _ (rowcol_index_ne hcc hin.2 hreq).symm _ _]
          exact hclean r c hr hcc hcl
      case isFalse hrow => exact absurd hin.1 hrow
  case isFalse hout => exact ⟨hp, hc, hd, hclean⟩

theorem DiffInv_resize (e : DiffEngine) (rows cols : Nat) (h : DiffInv e) :
    DiffInv (e.resize rows cols) := by
  obtain ⟨hp, hc, hd, hclean⟩ := h
  unfold DiffEngine.resize
  split
  case isTrue heq => exact ⟨hp, hc, hd, hclean⟩
  case isFalse hne =>
    refine ⟨List.length_replicate .., List.length_replicate .., List.length_replicate .., ?_⟩
    intro r c hr hcc hcl
    rfl

theorem DiffInv_apply (e : DiffEngine) (op : DiffOp) (h : DiffInv e) :
    DiffInv (DiffOp.apply e op) := by
  cases op with
  | setCellWithAttrs r c ch a => exact DiffInv_setCellWithAttrs e r c ch a h
  | setCell r c cell => exact DiffInv_setCell e r c cell h
  | clear => exact DiffInv_clear e h
  | markDirty r => exact DiffInv_markDirty e r h
  | markAllDirty => exact DiffInv_markAllDirty e h
  | resize r c => exact DiffInv_resize e r c h

theorem DiffInv_applyOps (ops : List DiffOp) :
    ∀ (e : DiffEngine), DiffInv e → DiffInv (applyOps e ops) := by
  induction ops with
  | nil => intro e h; exact h
  | cons op ops ih =>
    intro e h
    exact ih (DiffOp.apply e op) (DiffInv_apply e op h)

theorem DiffInv_reachable (e : DiffEngine) (h : ReachableDiff e) : DiffInv e := by
  obtain ⟨rows, cols, ops, rfl⟩ := h
  exact DiffInv_applyOps ops _ (DiffInv_make rows cols)

theorem rowsFold_clean (cols : Nat) (curr : List Cell) :
    ∀ (rows : Nat) (fs : DiffEngine.FrameState),
      (∀ r, fs.dirty.getD r false = false) →
      (List.range rows).foldl (DiffEngine.processRow cols curr) fs = fs := by
  intro rows
  induction rows with
  | zero => intro fs _; rfl
  | succ rows ih =>
    intro fs h
    rw [List.range_succ, List.foldl_append, List.foldl_cons, List.foldl_nil, ih fs h]
    simp only [DiffEngine.processRow, h rows]
    rfl

theorem computeDiff_clean (e : DiffEngine) (h : ∀ r, e.dirty.getD r false = false) :
    (DiffEngine.computeDiff e).1 = "" := by
  unfold DiffEngine.computeDiff DiffEngine.computeDiffFrame
  rw [rowsFold_clean e.cols e.curr e.rows _ (fun r => h r)]
  rfl

theorem getD_eq_getElem'' {α : Type} (l : List α) (i : Nat) (d : α) (h : i < l.length) :
    l.getD i d = l[i] := by
  rw [List.getD_eq_getElem?_getD, List.getElem?_eq_getElem h]
  rfl

theorem index_decomp {rows cols idx : Nat} (h : idx < rows * cols) :
    ∃ r c, r < rows ∧ c < cols ∧ idx = r * cols + c := by
  have hcols : 0 < cols := by
    rcases Nat.eq_zero_or_pos cols with h0 | h0
    · rw [h0, Nat.mul_zero] at h; omega
    · exact h0
  refine ⟨idx / cols, idx % cols, ?_, Nat.mod_lt idx hcols, ?_⟩
  · exact (Nat.div_lt_iff_lt_mul hcols).mpr h
  · rw [Nat.mul_comm]
    exact (Nat.div_add_mod idx cols).symm

/-- C1: from any state reachable by set-cell / clear / mark-dirty /
mark-all-dirty / resize operations, after `compute_diff()` the front buffer
equals the back buffer at every cell, every row's dirty flag is clear, and an
immediately following second `compute_diff()` returns the empty string. -/
theorem c1_compute_diff_reconciles (e : DiffEngine) (h : ReachableDiff e) :
    (DiffEngine.computeDiff e).2.prev = (DiffEngine.computeDiff e).2.curr ∧
    (∀ r, (DiffEngine.computeDiff e).2.dirty.getD r false = false) ∧
    (DiffEngine.computeDiff (DiffEngine.computeDiff e).2).1 = "" := by
  obtain ⟨hp, hc, hd, hclean⟩ := DiffInv_reachable e h
  have hinit : (DiffEngine.initFrame e).prev.length = e.curr.length := by
    show e.prev.length = e.curr.length
    rw [hp, hc]
  obtain ⟨flen, fdlen, fdhigh, fdlow, fphigh, fpmain⟩ :=
    rowsFold_spec e.cols e.curr e.rows (DiffEngine.initFrame e) hinit
  have hdirtyall : ∀ r, (DiffEngine.computeDiff e).2.dirty.getD r false = false := by
    intro r
    by_cases hr : r < e.rows
    · exact fdlow r hr
    · push_neg at hr
      refine getD_default' _ _ ?_ _
      show ((List.range e.rows).foldl (DiffEngine.processRow e.cols e.curr)
        (DiffEngine.initFrame e)).dirty.length ≤ r
      rw [fdlen]
      show e.dirty.length ≤ r
      omega
  refine ⟨?_, hdirtyall, ?_⟩
  · apply List.ext_getElem
    · show ((List.range e.rows).foldl (DiffEngine.processRow e.cols e.curr)
        (DiffEngine.initFrame e)).prev.length = e.curr.length
      exact flen
    · intro i h1 h2
      have hi : i < e.rows * e.cols := by
        rw [← hc]
        exact h2
      obtain ⟨r, c, hr, hcc, rfl⟩ := index_decomp hi
      rw [← getD_eq_getElem'' _ _ emptyCell h1, ← getD_eq_getElem'' _ _ emptyCell h2]
      by_cases hdr : e.dirty.getD r false = true
      · exact (fpmain r c hr hcc).1 hdr
      · have hdf : e.dirty.getD r false = false := by
          revert hdr
          cases e.dirty.getD r false <;> simp
        have h3 := (fpmain r c hr hcc).2 hdf
        show ((List.range e.rows).foldl (DiffEngine.processRow e.cols e.curr)
            (DiffEngine.initFrame e)).prev.getD (r * e.cols + c) emptyCell
          = e.curr.getD (r * e.cols + c) emptyCell
        rw [h3]
        exact hclean r c hr hcc hdf
  · exact computeDiff_clean _ hdirtyall

/-- Witness for `c1_compute_diff_reconciles` on a concrete operation sequence. -/
theorem c1_compute_diff_reconciles_witness :
    (DiffEngine.computeDiff
        (applyOps (DiffEngine.make 2 2)
          [DiffOp.setCellWithAttrs 0 0 "A" none, DiffOp.setCell 1 1 (packCellPart "B" 0, 0),
           DiffOp.markDirty 1, DiffOp.resize 2 3, DiffOp.setCellWithAttrs 1 2 "C" none])).2.prev
      = (DiffEngine.computeDiff
        (applyOps (DiffEngine.make 2 2)
          [DiffOp.setCellWithAttrs 0 0 "A" none, DiffOp.setCell 1 1 (packCellPart "B" 0, 0),
           DiffOp.markDirty 1, DiffOp.resize 2 3, DiffOp.setCellWithAttrs 1 2 "C" none])).2.curr ∧
    (DiffEngine.computeDiff (DiffEngine.computeDiff
        (applyOps (DiffEngine.make 2 2)
          [DiffOp.setCellWithAttrs 0 0 "A" none, DiffOp.setCell 1 1 (packCellPart "B" 0, 0),
           DiffOp.markDirty 1, DiffOp.resize 2 3, DiffOp.setCellWithAttrs 1 2 "C" none])).2).1
      = "" := by
  have h := c1_compute_diff_reconciles
    (applyOps (DiffEngine.make 2 2)
      [DiffOp.setCellWithAttrs 0 0 "A" none, DiffOp.setCell 1 1 (packCellPart "B" 0, 0),
       DiffOp.markDirty 1, DiffOp.resize 2 3, DiffOp.setCellWithAttrs 1 2 "C" none])
    ⟨2, 2, _, rfl⟩
  exact ⟨h.1, h.2.2⟩

/-- C5: with the decoder constructed with kittyKeyboard true (any quirks
option, any ambient terminal type), feeding 0x61 1B 5B 39 37 3B 31 3A 31 75
produces exactly one event, Key char 'a' / press / repeat false / no
modifiers (the bare printable 0x61 is suppressed); with the event-type
digit 0x33 instead, exactly one event with kind release. -/
theorem c5_kitty_press_release (q : Option Bool) (t : TerminalType) :
    (InputDecoder.feed (InputDecoder.make (some true) q t)
        [0x61, 0x1b, 0x5b, 0x39, 0x37, 0x3b, 0x31, 0x3a, 0x31, 0x75]).events =
      [InputEvent.key
        { code := KeyCode.chr "a", modifiers := noMods, repeat_ := false,
          kind := some KeyEventKind.press,
          raw := [0x1b, 0x5b, 0x39, 0x37, 0x3b, 0x31, 0x3a, 0x31, 0x75] }] ∧
    (InputDecoder.feed (InputDecoder.make (some true) q t)
        [0x61, 0x1b, 0x5b, 0x39, 0x37, 0x3b, 0x31, 0x3a, 0x33, 0x75]).events =
      [InputEvent.key
        { code := KeyCode.chr "a", modifiers := noMods, repeat_ := false,
          kind := some KeyEventKind.release,
          raw := [0x1b, 0x5b, 0x39, 0x37, 0x3b, 0x31, 0x3a, 0x33, 0x75] }] := by
  rcases q with _ | b
  · cases t <;> exact ⟨rfl, rfl⟩
  · cases b <;> cases t <;> exact ⟨rfl, rfl⟩

/-- C6 counterexample: sixteen parameters followed by an intermediate byte
and a digit grow the parameter list to 17 entries (processCSIIntermediate
pushes without a length check), and eight consecutive 9 digits accumulate
the value 99999999, far above 0x00FFFFFF (the guard only stops once the
value already exceeds the cap). -/
theorem c6_param_bounds_counterexample :
    (InputDecoder.feed (InputDecoder.make Option.none Option.none TerminalType.unknown)
        ([0x1b, 0x5b, 0x31] ++ (List.replicate 15 [0x3b, 0x31]).flatten
          ++ [0x20, 0x31])).params.length = 17 ∧
    MAX_CSI_PARAMS < 17 ∧
    (InputDecoder.feed (InputDecoder.make Option.none Option.none TerminalType.unknown)
        ([0x1b, 0x5b] ++ List.replicate 8 0x39)).params = [99999999] ∧
    MAX_CSI_PARAM < 99999999 := by
  exact ⟨by set_option maxRecDepth 4000 in rfl, by decide, rfl, by decide⟩

/-- The parameter list and parser state of the reset helper. -/
theorem reset_params_state (d : DecoderState) :
    (InputDecoder.reset d).params = [] ∧ (InputDecoder.reset d).state = ParserState.idle :=
  ⟨rfl, rfl⟩

/-- emitKey always ends in reset: empty parameters, idle state. -/
theorem emitKey_params_state (d : DecoderState) (c : KeyCode) (b : Bool)
    (m : KeyModifiers) (k : Option KeyEventKind) :
    (InputDecoder.emitKey d c b m k).params = [] ∧
      (InputDecoder.emitKey d c b m k).state = ParserState.idle :=
  ⟨rfl, rfl⟩

/-- emitMouse only appends an event and updates the last-button field. -/
theorem emitMouse_params_state (d : DecoderState) (b x y : Int) (s : Bool) :
    (InputDecoder.emitMouse d b x y s).params = d.params ∧
      (InputDecoder.emitMouse d b x y s).state = d.state := by
  exact ⟨rfl, rfl⟩

/-- handleControlChar either emits (resetting the parser) or is a no-op. -/
theorem hcc_shape (d : DecoderState) (b : Nat) :
    ((InputDecoder.handleControlChar d b).params = [] ∧
      (InputDecoder.handleControlChar d b).state = ParserState.idle) ∨
    InputDecoder.handleControlChar d b = d := by
  unfold InputDecoder.handleControlChar
  split
  · exact Or.inl ⟨rfl, rfl⟩
  · split
    · exact Or.inl ⟨rfl, rfl⟩
    · exact Or.inr rfl

/-- handleEscapeChar always emits, hence resets the parser. -/
theorem hec_shape (d : DecoderState) (b : Nat) :
    (InputDecoder.handleEscapeChar d b).params = [] ∧
      (InputDecoder.handleEscapeChar d b).state = ParserState.idle := by
  simp only [InputDecoder.handleEscapeChar]
  repeat' split
  all_goals exact ⟨rfl, rfl⟩

/-- handleX10Mouse never touches the parameter list or the parser state. -/
theorem hx10_shape (d : DecoderState) :
    (InputDecoder.handleX10Mouse d).params = d.params ∧
      (InputDecoder.handleX10Mouse d).state = d.state := by
  unfold InputDecoder.handleX10Mouse
  split
  · exact ⟨rfl, rfl⟩
  · split
    · exact emitMouse_params_state _ _ _ _ _
    · exact ⟨rfl, rfl⟩

/-- handleSGRMouseComplete never touches the parameter list or state. -/
theorem hsgr_shape (d : DecoderState) :
    (InputDecoder.handleSGRMouseComplete d).params = d.params ∧
      (InputDecoder.handleSGRMouseComplete d).state = d.state := by
  simp only [InputDecoder.handleSGRMouseComplete]
  split
  · exact ⟨rfl, rfl⟩
  · exact emitMouse_params_state _ _ _ _ _

/-- handleOSCSequence only touches the events and OSC buffers. -/
theorem hosc_shape (d : DecoderState) :
    (InputDecoder.handleOSCSequence d).params = d.params ∧
      (InputDecoder.handleOSCSequence d).state = d.state := by
  simp only [InputDecoder.handleOSCSequence]
  split
  · split
    · exact ⟨rfl, rfl⟩
    · exact ⟨rfl, rfl⟩
  · exact ⟨rfl, rfl⟩

/-- The named-key path of handleKittyKeyboard always emits, hence resets
the parser. -/
theorem hkkNamed_shape (d : DecoderState) (u : Nat) (km : KeyModifiers)
    (k : KeyEventKind) (kc : KeyCode) :
    (InputDecoder.hkkNamed d u km k kc).params = [] ∧
      (InputDecoder.hkkNamed d u km k kc).state = ParserState.idle := by
  unfold InputDecoder.hkkNamed InputDecoder.hkkModifierKeyBranch
  split
  · exact ⟨rfl, rfl⟩
  · exact ⟨rfl, rfl⟩

/-- handleKittyKeyboard either emits (resetting the parser) or leaves the
parameter list and parser state untouched (it may flip physical-modifier
flags). -/
theorem hkk_shape (d : DecoderState) :
    ((InputDecoder.handleKittyKeyboard d).params = [] ∧
      (InputDecoder.handleKittyKeyboard d).state = ParserState.idle) ∨
    ((InputDecoder.handleKittyKeyboard d).params = d.params ∧
      (InputDecoder.handleKittyKeyboard d).state = d.state) := by
  unfold InputDecoder.handleKittyKeyboard
  repeat' split
  all_goals first
    | exact Or.inl ⟨rfl, rfl⟩
    | exact Or.inr ⟨rfl, rfl⟩
    | exact Or.inl (hkkNamed_shape _ _ _ _ _)

/-- The navigation-key branch always emits, hence resets the parser. -/
theorem csiNavKeyBranch_shape (d : DecoderState) :
    (InputDecoder.csiNavKeyBranch d).params = [] ∧
      (InputDecoder.csiNavKeyBranch d).state = ParserState.idle :=
  ⟨rfl, rfl⟩

/-- The function-key branch always emits, hence resets the parser. -/
theorem csiFnKeyBranch_shape (d : DecoderState) :
    (InputDecoder.csiFnKeyBranch d).params = [] ∧
      (InputDecoder.csiFnKeyBranch d).state = ParserState.idle :=
  ⟨rfl, rfl⟩

/-- The generic CSI fallback always emits, hence resets the parser. -/
theorem csiFallback_shape (d : DecoderState) :
    (InputDecoder.csiFallback d).params = [] ∧
      (InputDecoder.csiFallback d).state = ParserState.idle := by
  unfold InputDecoder.csiFallback
  split
  · exact ⟨rfl, rfl⟩
  · exact ⟨rfl, rfl⟩

/-- A successful case-1 tilde parse is an emitted key, hence a reset
parser. -/
theorem csiTildeCase1_shape (d : DecoderState) (d' : DecoderState)
    (h : InputDecoder.csiTildeCase1 d = some d') :
    d'.params = [] ∧ d'.state = ParserState.idle := by
  unfold InputDecoder.csiTildeCase1 at h
  repeat' split at h
  all_goals first
    | (rw [Option.some_inj] at h; exact h ▸ ⟨rfl, rfl⟩)
    | exact Option.noConfusion h

/-- The tilde branch always emits, hence resets the parser. -/
theorem csiTildeBranch_shape (d : DecoderState) :
    (InputDecoder.csiTildeBranch d).params = [] ∧
      (InputDecoder.csiTildeBranch d).state = ParserState.idle := by
  unfold InputDecoder.csiTildeBranch
  split
  · exact csiTildeCase1_shape d _ (by assumption)
  · split
    · exact ⟨rfl, rfl⟩
    · exact csiFallback_shape d

/-- handleCSISequence either emits (resetting), keeps parameters and state,
or keeps parameters and switches to the paste state. -/
theorem hcs_shape (d : DecoderState) :
    ((InputDecoder.handleCSISequence d).params = [] ∧
      (InputDecoder.handleCSISequence d).state = ParserState.idle) ∨
    ((InputDecoder.handleCSISequence d).params = d.params ∧
      ((InputDecoder.handleCSISequence d).state = d.state ∨
        (InputDecoder.handleCSISequence d).state = ParserState.paste)) := by
  unfold InputDecoder.handleCSISequence
  repeat' split
  all_goals first
    | exact Or.inr ⟨rfl, Or.inr rfl⟩
    | exact Or.inl ⟨rfl, rfl⟩
    | exact Or.inl (csiNavKeyBranch_shape d)
    | exact Or.inl (csiFnKeyBranch_shape d)
    | exact Or.inl (csiTildeBranch_shape d)
    | exact Or.inl (csiFallback_shape d)
    | (rcases hkk_shape d with ⟨h1, h2⟩ | ⟨h1, h2⟩
       · exact Or.inl ⟨h1, h2⟩
       · exact Or.inr ⟨h1, Or.inl h2⟩)
    | (rcases hsgr_shape d with ⟨h1, h2⟩
       exact Or.inr ⟨h1, Or.inl h2⟩)
    | (rcases hx10_shape d with ⟨h1, h2⟩
       exact Or.inr ⟨h1, Or.inl h2⟩)

/-- A decoder whose parameter list is empty satisfies the value bound. -/
theorem paramsLE_nil {d : DecoderState} (h : d.params = []) : paramsLE d := by
  intro p hp
  rw [h] at hp
  cases hp

/-- processIdle preserves the parameter-value bound. -/
theorem PB_processIdle (d : DecoderState) (b : Nat) (h : paramsLE d) :
    paramsLE (InputDecoder.processIdle d b) := by
  unfold InputDecoder.processIdle
  repeat' split
  all_goals first
    | exact h
    | exact paramsLE_nil rfl
    | (rcases hcc_shape d b with ⟨h1, _⟩ | h2
       · exact paramsLE_nil h1
       · rw [h2]; exact h)

/-- processEscape preserves the parameter-value bound. -/
theorem PB_processEscape (d : DecoderState) (b : Nat) (h : paramsLE d) :
    paramsLE (InputDecoder.processEscape d b) := by
  unfold InputDecoder.processEscape
  repeat' split
  all_goals first
    | exact h
    | exact paramsLE_nil rfl

/-- Appending a digit value (at most 9) preserves the bound. -/
theorem paramsLE_append {d : DecoderState} (h : paramsLE d) {k : Nat} (hk : k ≤ 167772149)
    {xs : List Nat} (hxs : xs = d.params ++ [k]) : ∀ p ∈ xs, p ≤ 167772149 := by
  intro p hp
  rw [hxs] at hp
  rcases List.mem_append.1 hp with h1 | h1
  · exact h p h1
  · rw [List.mem_singleton.1 h1]; exact hk

/-- processCSI preserves the parameter-value bound. -/
theorem PB_processCSI (d : DecoderState) (b : Nat) (h : paramsLE d) :
    paramsLE (InputDecoder.processCSI d b) := by
  unfold InputDecoder.processCSI
  conv => zeta
  repeat' split
  all_goals first
    | exact h
    | exact paramsLE_nil rfl
    | exact paramsLE_append h (by omega) rfl
    | (rcases hcs_shape { d with final := String.singleton (Char.ofNat b) } with
        ⟨h1, _⟩ | ⟨h1, _⟩
       · exact paramsLE_nil h1
       · intro p hp; rw [h1] at hp; exact h p hp)

/-- processCSIParam preserves the parameter-value bound: digits accumulate
only while the current value is below MAX_CSI_PARAM, so a stored value
never exceeds 0xFFFFFE * 10 + 9 = 167772149. -/
theorem PB_processCSIParam (d : DecoderState) (b : Nat) (h : paramsLE d) :
    paramsLE (InputDecoder.processCSIParam d b) := by
  unfold InputDecoder.processCSIParam
  conv => zeta
  repeat' split
  all_goals first
    | exact h
    | exact paramsLE_nil rfl
    | exact paramsLE_append h (by omega) rfl
    | (rcases hcs_shape { d with final := String.singleton (Char.ofNat b) } with
        ⟨h1, _⟩ | ⟨h1, _⟩
       · exact paramsLE_nil h1
       · intro p hp; rw [h1] at hp; exact h p hp)
    | (intro p hp
       rcases List.mem_or_eq_of_mem_set hp with h1 | h1
       · exact h p h1
       · subst h1
         simp only [MAX_CSI_PARAM] at *
         omega)

/-- processCSIIntermediate preserves the parameter-value bound. -/
theorem PB_processCSIIntermediate (d : DecoderState) (b : Nat) (h : paramsLE d) :
    paramsLE (InputDecoder.processCSIIntermediate d b) := by
  unfold InputDecoder.processCSIIntermediate
  conv => zeta
  repeat' split
  all_goals first
    | exact h
    | exact paramsLE_nil rfl
    | exact paramsLE_append h (by omega) rfl
    | (rcases hcs_shape { d with final := String.singleton (Char.ofNat b) } with
        ⟨h1, _⟩ | ⟨h1, _⟩
       · exact paramsLE_nil h1
       · intro p hp; rw [h1] at hp; exact h p hp)

/-- processSS3 preserves the parameter-value bound (it always resets). -/
theorem PB_processSS3 (d : DecoderState) (b : Nat) :
    paramsLE (InputDecoder.processSS3 d b) := by
  unfold InputDecoder.processSS3
  split
  · exact paramsLE_nil rfl
  · exact paramsLE_nil rfl

/-- processPaste preserves the parameter-value bound. -/
theorem PB_processPaste (d : DecoderState) (b : Nat) (h : paramsLE d) :
    paramsLE (InputDecoder.processPaste d b) := by
  unfold InputDecoder.processPaste
  conv => zeta
  split
  · exact paramsLE_nil rfl
  · exact h

/-- processOSC preserves the parameter-value bound. -/
theorem PB_processOSC (d : DecoderState) (b : Nat) (h : paramsLE d) :
    paramsLE (InputDecoder.processOSC d b) := by
  unfold InputDecoder.processOSC
  conv => zeta
  repeat' split
  all_goals first
    | exact h
    | exact paramsLE_nil rfl

/-- processByte preserves the parameter-value bound. -/
theorem PB_processByte (d : DecoderState) (b : Nat) (h : paramsLE d) :
    paramsLE (InputDecoder.processByte d b) := by
  unfold InputDecoder.processByte
  conv => zeta
  have h0 : paramsLE (if d.buffer.length < SEQUENCE_BUFFER_SIZE then
      { d with buffer := d.buffer ++ [b] } else d) := by
    split
    · exact h
    · exact h
  generalize (if d.buffer.length < SEQUENCE_BUFFER_SIZE then
      { d with buffer := d.buffer ++ [b] } else d) = d0 at h0 ⊢
  split
  · exact PB_processIdle d0 b h0
  · exact PB_processEscape d0 b h0
  · exact PB_processCSI d0 b h0
  · exact PB_processCSIParam d0 b h0
  · exact PB_processCSIIntermediate d0 b h0
  · exact PB_processSS3 d0 b
  · exact PB_processPaste d0 b h0
  · exact PB_processOSC d0 b h0
  · repeat' split
    all_goals first
      | exact h0
      | exact paramsLE_nil rfl

/-- feed preserves the parameter-value bound. -/
theorem PB_feed (bytes : List Nat) (d : DecoderState) (h : paramsLE d) :
    paramsLE (InputDecoder.feed d bytes) := by
  induction bytes generalizing d with
  | nil => exact h
  | cons b bs ih => exact ih (InputDecoder.processByte d (b % 256)) (PB_processByte d (b % 256) h)

/-- A freshly reset decoder satisfies the CSI-parameter length invariant. -/
theorem csiQ_reset_like {d : DecoderState} (h1 : d.params = [])
    (h2 : d.state = ParserState.idle) : csiQ d := by
  refine ⟨?_, fun _ => h1, ?_⟩
  · rw [h1]; exact Nat.zero_le _
  · rw [h2]; decide

/-- processIdle preserves the CSI length invariant. -/
theorem Q_processIdle (d : DecoderState) (b : Nat) (h : csiQ d)
    (hst : d.state = ParserState.idle) : csiQ (InputDecoder.processIdle d b) := by
  unfold InputDecoder.processIdle
  repeat' split
  all_goals first
    | exact h
    | exact csiQ_reset_like rfl rfl
    | exact ⟨h.1, by intro hh; simp at hh, by simp⟩
    | (rcases hcc_shape d b with ⟨h1, h2⟩ | h2
       · exact csiQ_reset_like h1 h2
       · rw [h2]; exact h)

/-- processEscape preserves the CSI length invariant: entering the csi
state resets the parameter list. -/
theorem Q_processEscape (d : DecoderState) (b : Nat) (h : csiQ d) :
    csiQ (InputDecoder.processEscape d b) := by
  unfold InputDecoder.processEscape
  repeat' split
  all_goals first
    | exact csiQ_reset_like rfl rfl
    | exact ⟨Nat.zero_le _, fun _ => rfl, by simp⟩
    | exact ⟨h.1, by intro hh; simp at hh, by simp⟩

/-- processCSI preserves the CSI length invariant for non-intermediate
bytes: the parameter list is empty on entry, so a push yields one entry. -/
theorem Q_processCSI (d : DecoderState) (b : Nat) (h : csiQ d)
    (hst : d.state = ParserState.csi) (hb : ¬(0x20 ≤ b ∧ b ≤ 0x2f)) :
    csiQ (InputDecoder.processCSI d b) := by
  have hp : d.params = [] := h.2.1 hst
  unfold InputDecoder.processCSI
  conv => zeta
  repeat' split
  all_goals first
    | exact h
    | exact csiQ_reset_like rfl rfl
    | exact absurd (show 0x20 ≤ b ∧ b ≤ 0x2f by omega) hb
    | exact ⟨by rw [hp]; exact Nat.succ_le_succ (Nat.zero_le _),
        by intro hh; simp at hh, by simp⟩
    | exact ⟨h.1, by intro hh; simp at hh, by simp⟩
    | (rcases hcs_shape { d with final := String.singleton (Char.ofNat b) } with
        ⟨h1, _⟩ | ⟨h1, _⟩ <;>
      · have hpaste : (InputDecoder.handleCSISequence { d with
            final := String.singleton (Char.ofNat b) }).state = ParserState.paste :=
          not_not.1 (by assumption)
        refine ⟨?_, fun hh => ?_, fun hh => ?_⟩
        · rw [h1]
          first
            | exact Nat.zero_le _
            | exact h.1
        · rw [hpaste] at hh; cases hh
        · rw [hpaste] at hh; cases hh)

/-- processCSIParam preserves the CSI length invariant for
non-intermediate bytes: separators push a 16th entry at most. -/
theorem Q_processCSIParam (d : DecoderState) (b : Nat) (h : csiQ d)
    (hst : d.state = ParserState.csiParam) (hb : ¬(0x20 ≤ b ∧ b ≤ 0x2f)) :
    csiQ (InputDecoder.processCSIParam d b) := by
  unfold InputDecoder.processCSIParam
  conv => zeta
  repeat' split
  all_goals first
    | exact h
    | exact csiQ_reset_like rfl rfl
    | exact absurd (show 0x20 ≤ b ∧ b ≤ 0x2f by omega) hb
    | exact ⟨by rw [List.eq_nil_of_length_eq_zero
                  (show d.params.length = 0 by assumption)]
                exact Nat.succ_le_succ (Nat.zero_le _),
        fun hh => absurd (hst ▸ (hh : d.state = ParserState.csi)) (by decide),
        fun hh => absurd (hst ▸ (hh : d.state = ParserState.csiIntermediate)) (by decide)⟩
    | exact ⟨by rw [List.length_set]; exact h.1,
        fun hh => absurd (hst ▸ (hh : d.state = ParserState.csi)) (by decide),
        fun hh => absurd (hst ▸ (hh : d.state = ParserState.csiIntermediate)) (by decide)⟩
    | exact ⟨by rw [List.length_append]
                exact (by assumption : d.params.length < MAX_CSI_PARAMS),
        fun hh => absurd (hst ▸ (hh : d.state = ParserState.csi)) (by decide),
        fun hh => absurd (hst ▸ (hh : d.state = ParserState.csiIntermediate)) (by decide)⟩
    | (rcases hcs_shape { d with final := String.singleton (Char.ofNat b) } with
        ⟨h1, _⟩ | ⟨h1, _⟩ <;>
      · have hpaste : (InputDecoder.handleCSISequence { d with
            final := String.singleton (Char.ofNat b) }).state = ParserState.paste :=
          not_not.1 (by assumption)
        refine ⟨?_, fun hh => ?_, fun hh => ?_⟩
        · rw [h1]
          first
            | exact Nat.zero_le _
            | exact h.1
        · rw [hpaste] at hh; cases hh
        · rw [hpaste] at hh; cases hh)

/-- processSS3 preserves the CSI length invariant (it always resets). -/
theorem Q_processSS3 (d : DecoderState) (b : Nat) :
    csiQ (InputDecoder.processSS3 d b) := by
  unfold InputDecoder.processSS3
  split
  · exact csiQ_reset_like rfl rfl
  · exact csiQ_reset_like rfl rfl

/-- processPaste preserves the CSI length invariant. -/
theorem Q_processPaste (d : DecoderState) (b : Nat) (h : csiQ d)
    (hst : d.state = ParserState.paste) : csiQ (InputDecoder.processPaste d b) := by
  unfold InputDecoder.processPaste
  conv => zeta
  split
  · exact csiQ_reset_like rfl rfl
  · exact ⟨h.1,
      fun hh => absurd (hst ▸ (hh : d.state = ParserState.csi)) (by decide),
      fun hh => absurd (hst ▸ (hh : d.state = ParserState.csiIntermediate)) (by decide)⟩

/-- processOSC preserves the CSI length invariant. -/
theorem Q_processOSC (d : DecoderState) (b : Nat) (h : csiQ d)
    (hst : d.state = ParserState.osc) : csiQ (InputDecoder.processOSC d b) := by
  unfold InputDecoder.processOSC
  conv => zeta
  repeat' split
  all_goals first
    | exact csiQ_reset_like rfl rfl
    | exact ⟨h.1,
        fun hh => absurd (hst ▸ (hh : d.state = ParserState.csi)) (by decide),
        fun hh => absurd (hst ▸ (hh : d.state = ParserState.csiIntermediate)) (by decide)⟩

/-- processByte preserves the CSI length invariant for bytes outside the
intermediate range 0x20..0x2F. -/
theorem Q_processByte (d : DecoderState) (b : Nat) (h : csiQ d)
    (hb : ¬(0x20 ≤ b ∧ b ≤ 0x2f)) : csiQ (InputDecoder.processByte d b) := by
  unfold InputDecoder.processByte
  conv => zeta
  have h0 : csiQ (if d.buffer.length < SEQUENCE_BUFFER_SIZE then
      { d with buffer := d.buffer ++ [b] } else d) := by
    split
    · exact ⟨h.1, fun hh => h.2.1 hh, fun hh => h.2.2 hh⟩
    · exact h
  generalize (if d.buffer.length < SEQUENCE_BUFFER_SIZE then
      { d with buffer := d.buffer ++ [b] } else d) = d0 at h0 ⊢
  split
  · exact Q_processIdle d0 b h0 (by assumption)
  · exact Q_processEscape d0 b h0
  · exact Q_processCSI d0 b h0 (by assumption) hb
  · exact Q_processCSIParam d0 b h0 (by assumption) hb
  · exact absurd (by assumption) h0.2.2
  · exact Q_processSS3 d0 b
  · exact Q_processPaste d0 b h0 (by assumption)
  · exact Q_processOSC d0 b h0 (by assumption)
  · repeat' split
    all_goals first
      | exact h0
      | exact csiQ_reset_like rfl rfl
      | exact ⟨h0.1, by intro hh; simp at hh, by simp⟩

/-- feed preserves the CSI length invariant when no fed byte reduces to
the intermediate range. -/
theorem Q_feed (bytes : List Nat) (d : DecoderState) (h : csiQ d)
    (hbytes : ∀ x ∈ bytes, ¬(0x20 ≤ x % 256 ∧ x % 256 ≤ 0x2f)) :
    csiQ (InputDecoder.feed d bytes) := by
  induction bytes generalizing d with
  | nil => exact h
  | cons b bs ih =>
    exact ih (InputDecoder.processByte d (b % 256))
      (Q_processByte d (b % 256) h (hbytes b (List.mem_cons_self b bs)))
      (fun x hx => hbytes x (List.mem_cons_of_mem b hx))

/-- C6 amended: for every decoder configuration and byte sequence, every
stored CSI parameter is at most 167772149 (one digit past the 0xFFFFFF
accumulation guard, not 0xFFFFFF itself), and the 16-entry bound on the
parameter list holds provided no fed byte lies in the intermediate range
0x20..0x2F (a digit after an intermediate byte pushes entries without a
length check). -/
theorem c6_param_bounds_amended (kb q : Option Bool) (t : TerminalType) (bytes : List Nat) :
    (∀ p ∈ (InputDecoder.feed (InputDecoder.make kb q t) bytes).params, p ≤ 167772149) ∧
    ((∀ b ∈ bytes, ¬(0x20 ≤ b % 256 ∧ b % 256 ≤ 0x2f)) →
      (InputDecoder.feed (InputDecoder.make kb q t) bytes).params.length ≤ MAX_CSI_PARAMS) := by
  constructor
  · exact PB_feed bytes (InputDecoder.make kb q t) (paramsLE_nil rfl)
  · intro hbytes
    exact (Q_feed bytes (InputDecoder.make kb q t)
      ⟨Nat.zero_le _, fun _ => rfl, fun hh => by simp [InputDecoder.make] at hh⟩ hbytes).1

/-- Witness for the amended C6 bound at a concrete SGR-style sequence. -/
theorem c6_param_bounds_amended_witness :
    (∀ p ∈ (InputDecoder.feed (InputDecoder.make Option.none Option.none TerminalType.unknown)
        [0x1b, 0x5b, 0x39, 0x3b, 0x31, 0x6d]).params, p ≤ 167772149) ∧
    (InputDecoder.feed (InputDecoder.make Option.none Option.none TerminalType.unknown)
        [0x1b, 0x5b, 0x39, 0x3b, 0x31, 0x6d]).params.length ≤ MAX_CSI_PARAMS :=
  ⟨(c6_param_bounds_amended Option.none Option.none TerminalType.unknown
      [0x1b, 0x5b, 0x39, 0x3b, 0x31, 0x6d]).1,
    (c6_param_bounds_amended Option.none Option.none TerminalType.unknown
      [0x1b, 0x5b, 0x39, 0x3b, 0x31, 0x6d]).2 (by decide)⟩

/-- C8 counterexample: with TERM_PROGRAM set to an unrecognised value and
TERM containing kitty, the claimed priority chain yields Kitty but the
code skips the TERM substring stage entirely (it runs only when
TERM_PROGRAM is unset) and lands on Unknown. -/
theorem c8_priority_counterexample :
    detectTerminalTypeSpec ⟨"xterm-kitty", "foo", "", "", ""⟩ = TerminalType.kitty ∧
    (detectTerminalType ⟨"xterm-kitty", "foo", "", "", ""⟩).1 = TerminalType.unknown ∧
    TerminalType.kitty ≠ TerminalType.unknown := by
  exact ⟨rfl, rfl, by decide⟩

/-- C8 amended: the detected type follows the corrected priority chain
(TERM substring only when TERM_PROGRAM is unset, with alacritty-in-TERM
folded into the first stage), and the SSH/tmux downgrades hold exactly as
claimed: SSH demotes a Full Clipboard to Partial and Full FocusEvents to
None, tmux demotes Full KittyKeyboard and Full FocusEvents to None. -/
theorem c8_detection_amended :
    (∀ env : Env, (detectTerminalType env).1 = detectTerminalTypeAmended env) ∧
    (∀ (t : TerminalType) (s m : Bool),
      (s = true → TERMINAL_FEATURE_SUPPORT t .clipboard = .full →
        getBaseFeatureSupport t s m .clipboard = .part) ∧
      (s = true → TERMINAL_FEATURE_SUPPORT t .focusEvents = .full →
        getBaseFeatureSupport t s m .focusEvents = .none) ∧
      (m = true → TERMINAL_FEATURE_SUPPORT t .kittyKeyboard = .full →
        getBaseFeatureSupport t s m .kittyKeyboard = .none) ∧
      (m = true → TERMINAL_FEATURE_SUPPORT t .focusEvents = .full →
        getBaseFeatureSupport t s m .focusEvents = .none)) := by
  constructor
  · intro env
    unfold detectTerminalType detectTerminalTypeAmended
    split_ifs <;> rfl
  · intro t s m
    cases t <;> cases s <;> cases m <;>
      exact ⟨by decide, by decide, by decide, by decide⟩

/-- Witness for the amended C8 theorem at a concrete environment and at
the Kitty-over-SSH downgrade. -/
theorem c8_detection_amended_witness :
    (detectTerminalType ⟨"", "kitty", "1.0", "", ""⟩).1 =
      detectTerminalTypeAmended ⟨"", "kitty", "1.0", "", ""⟩ ∧
    getBaseFeatureSupport TerminalType.kitty true false InputFeature.clipboard =
      SupportLevel.part :=
  ⟨c8_detection_amended.1 ⟨"", "kitty", "1.0", "", ""⟩,
    (c8_detection_amended.2 TerminalType.kitty true false).1 rfl (by decide)⟩

/-- strIncludes holds for any list-level infix. -/
theorem strIncludes_of_infix {hay needle : String} (h : needle.data <:+: hay.data) :
    strIncludes hay needle = true := by
  rcases h with ⟨s, t, hst⟩
  unfold strIncludes listIsInfixOf
  rw [List.any_eq_true]
  refine ⟨needle.data ++ t, ?_, ?_⟩
  · exact (List.mem_tails _ _).2 ⟨s, by rw [← List.append_assoc, hst]⟩
  · exact List.isPrefixOf_iff_prefix.2 ⟨t, rfl⟩

/-- Every element of a joined list is an infix of the join. -/
theorem joinSep_infix (sep : String) (xs : List String) (x : String) (hx : x ∈ xs) :
    x.data <:+: (joinSep sep xs).data := by
  induction xs with
  | nil => cases hx
  | cons y ys ih =>
    cases ys with
    | nil =>
      rw [List.mem_singleton.1 hx]
      exact List.infix_rfl
    | cons z zs =>
      rcases List.mem_cons.1 hx with h1 | h1
      · subst h1
        exact ⟨[], (sep ++ joinSep sep (z :: zs)).data,
          by simp [joinSep, String.data_append, List.append_assoc]⟩
      · have hstep : (joinSep sep (z :: zs)).data <:+:
            (joinSep sep (y :: z :: zs) : String).data :=
          ⟨(y ++ sep).data, [], by simp [joinSep, String.data_append, List.append_assoc]⟩
        exact (ih h1).trans hstep

/-- The error loop of initializeInput collects exactly one message per
enabled, unsupported, required feature, in configuration order. -/
theorem initErrors_eq (caps : Capabilities) (features : List (InputFeature × FeatureConfig)) :
    initErrors caps features =
      (features.filter (fun fc => fc.2.enabled
          && !(isFeatureSupported caps fc.1 (fc.2.minLevel.getD .part))
          && fc.2.required)).map
        (fun fc => requiredFeatureError fc.1 caps.terminalType) := by
  suffices hgen : ∀ (fcs : List (InputFeature × FeatureConfig)) (acc : List String),
      fcs.foldl
        (fun errs fc =>
          if fc.2.enabled = false then errs
          else if isFeatureSupported caps fc.1 (fc.2.minLevel.getD .part) then errs
          else if fc.2.required then
            errs ++ [requiredFeatureError fc.1 caps.terminalType]
          else errs)
        acc
        = acc ++ (fcs.filter (fun fc => fc.2.enabled
            && !(isFeatureSupported caps fc.1 (fc.2.minLevel.getD .part))
            && fc.2.required)).map
          (fun fc => requiredFeatureError fc.1 caps.terminalType) by
    simpa using hgen features []
  intro fcs
  induction fcs with
  | nil => intro acc; simp
  | cons fc fcs ih =>
    intro acc
    rw [List.foldl_cons, List.filter_cons]
    by_cases h1 : fc.2.enabled = true
    · by_cases h2 : isFeatureSupported caps fc.1 (fc.2.minLevel.getD .part) = true
      · simp [h1, h2, ih]
      · by_cases h3 : fc.2.required = true
        · simp [h1, h2, h3, ih, List.append_assoc]
        · simp [h1, h2, h3, ih]
    · simp [h1, ih]

set_option maxHeartbeats 1600000 in
/-- C9: initialization fails exactly when some configured feature is
enabled, required, and unsupported at its minimum level; the error message
then names each such feature and the detected terminal type; with no such
feature (optional features merely skipped), initialization succeeds. -/
theorem c9_required_unsupported_error (caps : Capabilities)
    (features : List (InputFeature × FeatureConfig)) :
    ((∃ e, initializeInput caps features = Except.error e) ↔
      (∃ fc ∈ features, fc.2.enabled = true ∧ fc.2.required = true ∧
        isFeatureSupported caps fc.1 (fc.2.minLevel.getD .part) = false)) ∧
    (∀ f cfg, (f, cfg) ∈ features → cfg.enabled = true → cfg.required = true →
      isFeatureSupported caps f (cfg.minLevel.getD .part) = false →
      ∀ e, initializeInput caps features = Except.error e →
        strIncludes e (featureName f) = true ∧
        strIncludes e (terminalTypeName caps.terminalType) = true) ∧
    ((¬ ∃ fc ∈ features, fc.2.enabled = true ∧ fc.2.required = true ∧
        isFeatureSupported caps fc.1 (fc.2.minLevel.getD .part) = false) →
      initializeInput caps features = Except.ok ()) := by
  have hiff : initErrors caps features ≠ [] ↔
      ∃ fc ∈ features, fc.2.enabled = true ∧ fc.2.required = true ∧
        isFeatureSupported caps fc.1 (fc.2.minLevel.getD .part) = false := by
    rw [initErrors_eq]
    constructor
    · intro hne
      have hf : features.filter (fun fc => fc.2.enabled
          && !(isFeatureSupported caps fc.1 (fc.2.minLevel.getD .part))
          && fc.2.required) ≠ [] := by
        intro hnil
        exact hne (by rw [hnil]; rfl)
      rcases List.exists_mem_of_ne_nil _ hf with ⟨fc, hfc⟩
      rcases List.mem_filter.1 hfc with ⟨hmem, hp⟩
      simp only [Bool.and_eq_true, Bool.not_eq_true'] at hp
      exact ⟨fc, hmem, hp.1.1, hp.2, hp.1.2⟩
    · rintro ⟨fc, hmem, h1, h3, h2⟩
      intro hnil
      have hfc : fc ∈ features.filter (fun fc => fc.2.enabled
          && !(isFeatureSupported caps fc.1 (fc.2.minLevel.getD .part))
          && fc.2.required) :=
        List.mem_filter.2 ⟨hmem, by simp [h1, h2, h3]⟩
      rw [List.map_eq_nil_iff] at hnil
      rw [hnil] at hfc
      cases hfc
  refine ⟨?_, ?_, ?_⟩
  · constructor
    · rintro ⟨e, he⟩
      by_cases hlen : (initErrors caps features).length > 0
      · exact hiff.1 (fun hnil => by simp [hnil] at hlen)
      · unfold initializeInput at he
        rw [if_neg hlen] at he
        cases he
    · intro hex
      have hne := hiff.2 hex
      have hlen : (initErrors caps features).length > 0 := List.length_pos.2 hne
      refine ⟨"Input initialization failed:\n"
        ++ joinSep "\n" (initErrors caps features), ?_⟩
      unfold initializeInput
      rw [if_pos hlen]
  · intro f cfg hmem hen hreq hsup e he
    by_cases hlen : (initErrors caps features).length > 0
    · unfold initializeInput at he
      rw [if_pos hlen] at he
      injection he with he'
      have hmsg : requiredFeatureError f caps.terminalType ∈ initErrors caps features := by
        rw [initErrors_eq]
        exact List.mem_map_of_mem _
          (List.mem_filter.2 ⟨hmem, by simp [hen, hreq, hsup]⟩)
      have hinfix1 : (requiredFeatureError f caps.terminalType).data <:+:
          (joinSep "\n" (initErrors caps features)).data :=
        joinSep_infix _ _ _ hmsg
      have hinfix2 : (joinSep "\n" (initErrors caps features)).data <:+: e.data := by
        rw [← he']
        exact ⟨("Input initialization failed:\n" : String).data, [],
          by simp [String.data_append]⟩
      constructor
      · refine strIncludes_of_infix (List.IsInfix.trans (List.IsInfix.trans ?_ hinfix1) hinfix2)
        exact ⟨("Required feature '" : String).data,
          ("' is not supported by terminal '" ++ terminalTypeName caps.terminalType
            ++ "'" : String).data,
          by simp [requiredFeatureError, String.data_append, List.append_assoc]⟩
      · refine strIncludes_of_infix (List.IsInfix.trans (List.IsInfix.trans ?_ hinfix1) hinfix2)
        exact ⟨("Required feature '" ++ featureName f
            ++ "' is not supported by terminal '" : String).data,
          ("'" : String).data,
          by simp [requiredFeatureError, String.data_append, List.append_assoc]⟩
    · unfold initializeInput at he
      rw [if_neg hlen] at he
      cases he
  · intro hnone
    have hnil : initErrors caps features = [] := not_not.1 (fun hne => hnone (hiff.1 hne))
    unfold initializeInput
    rw [if_neg (by simp [hnil])]

/-- Witness for C9 at a concrete configuration: one enabled, required,
unsupported feature on an unknown terminal produces an error naming
'mouseTracking' and 'unknown'. -/
theorem c9_required_unsupported_error_witness :
    (∃ e, initializeInput ⟨TerminalType.unknown, fun _ => SupportLevel.none⟩
        [(InputFeature.mouseTracking, ⟨true, true, Option.none⟩)] = Except.error e) ∧
    strIncludes ("Input initialization failed:\n" ++ joinSep "\n"
        (initErrors ⟨TerminalType.unknown, fun _ => SupportLevel.none⟩
          [(InputFeature.mouseTracking, ⟨true, true, Option.none⟩)]))
      (featureName InputFeature.mouseTracking) = true ∧
    strIncludes ("Input initialization failed:\n" ++ joinSep "\n"
        (initErrors ⟨TerminalType.unknown, fun _ => SupportLevel.none⟩
          [(InputFeature.mouseTracking, ⟨true, true, Option.none⟩)]))
      (terminalTypeName TerminalType.unknown) = true := by
  refine ⟨?_, ?_, ?_⟩
  · exact (c9_required_unsupported_error ⟨TerminalType.unknown, fun _ => SupportLevel.none⟩
      [(InputFeature.mouseTracking, ⟨true, true, Option.none⟩)]).1.2
      ⟨(InputFeature.mouseTracking, ⟨true, true, Option.none⟩), by simp, rfl, rfl, by decide⟩
  · exact ((c9_required_unsupported_error ⟨TerminalType.unknown, fun _ => SupportLevel.none⟩
      [(InputFeature.mouseTracking, ⟨true, true, Option.none⟩)]).2.1
      InputFeature.mouseTracking ⟨true, true, Option.none⟩ (by simp) rfl rfl (by decide)
      _ rfl).1
  · exact ((c9_required_unsupported_error ⟨TerminalType.unknown, fun _ => SupportLevel.none⟩
      [(InputFeature.mouseTracking, ⟨true, true, Option.none⟩)]).2.1
      InputFeature.mouseTracking ⟨true, true, Option.none⟩ (by simp) rfl rfl (by decide)
      _ rfl).2
